import Mathlib

/-!
# SideCar: verification of the delta engine and NPC classification core

A shallow embedding, in Lean 4, of the state-mutation and classification core
of the SideCar repository:

* `src/lib/delta-engine.js` — the path-addressed delta-operation engine
  (`DeltaEngine.parsePath`, `getNestedValue`, `setNestedValue`,
  `deleteNestedValue`, `validate`, `apply`, the per-kind `applyX` helpers and
  `applyBatch`);
* the NPC registry (`NPCRegistry`: `markAsMentioned`, `setClassification`,
  `replaceNPC`, `getOrCreate`, `applyOperations`) and the NPC classifier
  (`migrateToMajor`, `migrateToMinor`, `remapOperationsForClassification`,
  `executeClassificationActions`, `promoteNPC`, `demoteNPC`).

JavaScript documents are modelled by the inductive type `Val` (JSON-like trees
plus `undefined` and `NaN`); an *absent* property and a property whose stored
value is `undefined` both read back as `Val.vundef`, but objects record the
set of present keys so that `Object.hasOwn` is faithful.  The source files are
ES modules, hence strict mode: assigning a property on a primitive value is a
`TypeError`, which the embedding models by returning `Except.error`.  Numbers
are modelled as exact rationals together with an explicit `NaN` value; IEEE
rounding is not modelled (no claim below depends on it).  Wall-clock
timestamps (`new Date().toISOString()`) are threaded through as an explicit
`now : String` parameter, and the asynchronous persistence layer
(`save`/`load`, `SillyTavern.getContext()`) is outside the modelled core, as
is the engine's undo `history` buffer (write-only state, never read).
-/

namespace SideCar

/-- A JavaScript runtime value as used by the SideCar document model:
`undefined`, `null`, booleans, numbers (an exact rational, or `NaN`),
strings, arrays and plain objects.  Object fields are kept in insertion
order, and a field may be present with value `vundef` (JS distinguishes a
present-but-`undefined` property from an absent one via `Object.hasOwn`). -/
inductive Val where
  | vundef : Val
  | vnull : Val
  | vbool : Bool → Val
  | vnum : Rat → Val
  | vnan : Val
  | vstr : String → Val
  | varr : List Val → Val
  | vobj : List (String × Val) → Val
deriving Repr

namespace Val

/-- JavaScript truthiness: `undefined`, `null`, `false`, `0`, `NaN` and the
empty string are falsy; every other value (including every object and array)
is truthy. -/
def truthy : Val → Bool
  | vundef => false
  | vnull => false
  | vbool b => b
  | vnum q => q ≠ 0
  | vnan => false
  | vstr s => s ≠ ""
  | varr _ => true
  | vobj _ => true

/-- The JavaScript `typeof` operator (note `typeof null = "object"` and
`typeof NaN = "number"`). -/
def jsTypeof : Val → String
  | vundef => "undefined"
  | vnull => "object"
  | vbool _ => "boolean"
  | vnum _ => "number"
  | vnan => "number"
  | vstr _ => "string"
  | varr _ => "object"
  | vobj _ => "object"

end Val

open Val

/-- Digits-only test, the JS regex `^\d+$` on a string. -/
def isDigits (s : String) : Bool :=
  s ≠ "" ∧ s.data.all Char.isDigit

/-- The numeric value of a non-empty digit list. -/
def digitsVal (ds : List Char) : Nat :=
  ds.foldl (fun a c => a * 10 + (c.toNat - '0'.toNat)) 0

/-- A canonical JS array index: a digit string with no leading zero (`"0"`,
`"7"`, `"42"`, but not `"02"` or `""`).  Array elements are addressed by such
keys; other string keys on an array would be ordinary (non-index) properties,
which this model does not store (see `assignProp`). -/
def canonIndex (s : String) : Option Nat :=
  if isDigits s ∧ (s = "0" ∨ s.data.head? ≠ some '0') then some (digitsVal s.data)
  else none

/-- `String.prototype.startsWith`. -/
def jsStartsWith (s pat : String) : Bool :=
  pat.data.isPrefixOf s.data

/-- `String.prototype.toLowerCase` (ASCII; the analysed data is ASCII). -/
def jsToLower (s : String) : String :=
  ⟨s.data.map Char.toLower⟩

/-- Substring search over character lists (the semantics of
`String.prototype.includes`). -/
def containsSub (hay pat : List Char) : Bool :=
  match hay with
  | [] => pat.isPrefixOf ([] : List Char)
  | _ :: rest => pat.isPrefixOf hay ∨ containsSub rest pat

/-- Splitting a character list on a separator character (the semantics of
JS `String.prototype.split('.')` and of Lean's `String.split (· = c)`,
restated structurally). -/
def splitOnChar (c : Char) : List Char → List (List Char)
  | [] => [[]]
  | x :: rest =>
    match splitOnChar c rest with
    | [] => [[]]
    | h :: t => if x = c then [] :: h :: t else (x :: h) :: t

/-- Whitespace recognised by `parseFloat` / `parseInt` / `String.trim`
(modelled as the common ASCII whitespace characters). -/
def jsWhitespace (c : Char) : Bool :=
  c = ' ' ∨ c = '\t' ∨ c = '\n' ∨ c = '\r'

/-- JS `String.prototype.trim` (over the modelled whitespace set). -/
def jsTrim (s : String) : String :=
  ⟨((s.data.dropWhile jsWhitespace).reverse.dropWhile jsWhitespace).reverse⟩

/-- The rational denoted by a parsed decimal literal: sign flag, integer
part, fraction digits' value and count, decimal exponent. -/
def decimalValue (neg : Bool) (ip fp flen : Nat) (expo : Int) : Rat :=
  let mant : Rat := (ip : Rat) + (fp : Rat) / ((10 ^ flen : Nat) : Rat)
  let s : Rat := if neg then -1 else 1
  if expo ≥ 0 then s * mant * ((10 ^ expo.toNat : Nat) : Rat)
  else s * mant / ((10 ^ (-expo).toNat : Nat) : Rat)

/-- Longest-prefix decimal literal parser shared by the models of
`parseFloat` and string `ToNumber`: parses `[+-]? digits [. digits]
[eE [+-] digits]` (at least one mantissa digit required; an exponent marker
not followed by a digit is not consumed) and returns the value together with
the unconsumed suffix, or `none` when no mantissa digit is found.
`Infinity` and hex literals are not modelled (no analysed call site can
receive them). -/
def parseDecimalPrefix (cs0 : List Char) : Option (Rat × List Char) :=
  let (neg, cs) : Bool × List Char :=
    match cs0 with
    | '-' :: r => (true, r)
    | '+' :: r => (false, r)
    | _ => (false, cs0)
  let intD := cs.takeWhile Char.isDigit
  let cs := cs.dropWhile Char.isDigit
  let (fracD, cs) : List Char × List Char :=
    match cs with
    | '.' :: r => (r.takeWhile Char.isDigit, r.dropWhile Char.isDigit)
    | _ => ([], cs)
  if intD.isEmpty ∧ fracD.isEmpty then none
  else
    let (expo, cs) : Int × List Char :=
      match cs with
      | c :: r =>
        if c = 'e' ∨ c = 'E' then
          let (esign, r2) : Int × List Char :=
            match r with
            | '-' :: t => (-1, t)
            | '+' :: t => (1, t)
            | _ => (1, r)
          let eD := r2.takeWhile Char.isDigit
          if eD.isEmpty then (0, c :: r)
          else (esign * (digitsVal eD : Int), r2.dropWhile Char.isDigit)
        else (0, c :: r)
      | [] => (0, [])
    some (decimalValue neg (digitsVal intD) (digitsVal fracD) fracD.length expo, cs)

/-- JS `parseFloat`: skip leading whitespace, parse the longest decimal
prefix, ignore trailing garbage; no parsable prefix gives `NaN` (`none`). -/
def jsParseFloat (s : String) : Option Rat :=
  match parseDecimalPrefix (s.data.dropWhile jsWhitespace) with
  | some (q, _) => some q
  | none => none

/-- JS `parseInt(s, 10)`: skip leading whitespace, optional sign, then the
longest prefix of decimal digits; no digits gives `NaN` (`none`). -/
def jsParseInt (s : String) : Option Int :=
  let cs := s.data.dropWhile jsWhitespace
  let (sign, cs) : Int × List Char :=
    match cs with
    | '-' :: r => (-1, r)
    | '+' :: r => (1, r)
    | _ => (1, cs)
  let ds := cs.takeWhile Char.isDigit
  if ds.isEmpty then none else some (sign * digitsVal ds)

/-- Decimal rendering of a rational for JS `Number.prototype.toString`.
Exact for integers; for non-integers JS prints the shortest decimal that
round-trips the IEEE double, which this model approximates by an exact
decimal expansion truncated at 17 fractional digits (exact for every number
this development constructs).  No theorem below depends on the non-integer
case. -/
def numToString (q : Rat) : String :=
  if q.den = 1 then toString q.num
  else
    let sgn := if q < 0 then "-" else ""
    let a := |q|
    let ip := a.floor.toNat
    let frac := a - (ip : Rat)
    let digits := (Nat.digits 10 ((frac * 10 ^ 17).floor.toNat)).reverse
    let padded := List.replicate (17 - digits.length) 0 ++ digits
    let trimmed := (padded.reverse.dropWhile (· = 0)).reverse
    let fracStr := String.join (trimmed.map (fun d => toString d))
    sgn ++ toString ip ++ "." ++ fracStr

mutual

/-- JS `ToString` coercion (`String(v)`), as triggered by property-key
coercion, string concatenation and `parseFloat` of a non-string value.
Arrays stringify by joining element strings with `","` where `null` and
`undefined` elements become empty strings; plain objects stringify as
`"[object Object]"`. -/
def jsToStr : Val → String
  | .vundef => "undefined"
  | .vnull => "null"
  | .vbool b => if b then "true" else "false"
  | .vnum q => numToString q
  | .vnan => "NaN"
  | .vstr s => s
  | .varr xs => jsToStrArr xs
  | .vobj _ => "[object Object]"

/-- Array element rendering for `jsToStr`: `null`/`undefined` elements render
as the empty string, all elements joined with `","`. -/
def jsToStrArr : List Val → String
  | [] => ""
  | [x] =>
    match x with
    | .vundef => ""
    | .vnull => ""
    | x => jsToStr x
  | x :: y :: rest =>
    (match x with
     | .vundef => ""
     | .vnull => ""
     | x => jsToStr x) ++ "," ++ jsToStrArr (y :: rest)

end

/-- Association-list field lookup for object values (`undefined` if absent). -/
def objGet (fs : List (String × Val)) (k : String) : Val :=
  match fs.find? (fun f => f.1 = k) with
  | some f => f.2
  | none => (Val.vundef)

/-- `Object.hasOwn(obj, k)`: is `k` a present key (even if its value is
`undefined`)? -/
def objHas (fs : List (String × Val)) (k : String) : Bool :=
  fs.any (fun f => f.1 = k)

/-- Field update: replace the value of an existing key in place (JS keeps the
original insertion position), or append a new key at the end. -/
def objSet (fs : List (String × Val)) (k : String) (v : Val) : List (String × Val) :=
  if objHas fs k then fs.map (fun f => if f.1 = k then (k, v) else f)
  else fs ++ [(k, v)]

/-- Field deletion (`delete obj[k]`). -/
def objDelete (fs : List (String × Val)) (k : String) : List (String × Val) :=
  fs.filter (fun f => f.1 ≠ k)

/-- Array element write `arr[i] = v`: update in range, append at the length,
or pad with holes (`undefined`) beyond it, as JS sparse assignment does. -/
def arrSet (xs : List Val) (i : Nat) (v : Val) : List Val :=
  if i < xs.length then xs.set i v
  else xs ++ List.replicate (i - xs.length) .vundef ++ [v]

/-- Property read `cur[k]` for a string key `k` (callers guard against
`null`/`undefined` bases, which would throw in JS).  Arrays answer canonical
indices and `length`; strings answer character indices and `length`;
number/boolean bases have no own properties (prototype methods are not
modelled, no call site reads them).  Non-index own properties of arrays
cannot be created in this model (see `assignProp`), so reading them as
`undefined` is consistent. -/
def getProp : Val → String → Val
  | .vobj fs, k => objGet fs k
  | .varr xs, k =>
    if k = "length" then .vnum xs.length
    else
      match canonIndex k with
      | some i => xs.getD i .vundef
      | none => .vundef
  | .vstr s, k =>
    if k = "length" then .vnum s.length
    else
      match canonIndex k with
      | some i => if i < s.length then .vstr ⟨[s.data.getD i ' ']⟩ else .vundef
      | none => .vundef
  | _, _ => (Val.vundef)

/-- Property write `cur[k] = v`.  In strict mode (these files are ES modules)
assigning a property on a primitive, `null` or `undefined` throws a
`TypeError`.  Assigning `length` or a non-canonical-index key on an array is
legal JS but never reachable from the analysed call sites with the documents
any claim quantifies over; the model makes those cases explicit errors rather
than silently mismodelling them. -/
def assignProp : Val → String → Val → Except String Val
  | .vobj fs, k, v => .ok (.vobj (objSet fs k v))
  | .varr xs, k, v =>
    if k = "length" then .error "unmodelled: array length assignment"
    else
      match canonIndex k with
      | some i => .ok (.varr (arrSet xs i v))
      | none => .error "unmodelled: non-index array property"
  | _, _, _ => .error "TypeError: cannot create property on a primitive"

/-- JS `ToNumber` on a string (used by `++` coercion): whitespace-only is `0`,
otherwise the *whole* trimmed string must be a numeric literal (unlike
`parseFloat`, trailing garbage makes it `NaN`). -/
def strToNumber (s : String) : Option Rat :=
  let t := jsTrim s
  if t = "" then some 0
  else
    match parseDecimalPrefix t.data with
    | some (q, []) => some q
    | _ => none

/-- JS `ToNumber` coercion of a value, as performed by the `++` operator
(`NaN` is `none`-like, kept as `Val.vnan` by callers). -/
def toNumber : Val → Option Rat
  | .vundef => none
  | .vnull => some 0
  | .vbool b => some (if b then 1 else 0)
  | .vnum q => some q
  | .vnan => none
  | .vstr s => strToNumber s
  | .varr xs => strToNumber (jsToStrArr xs)
  | .vobj _ => none

/-- Shallow strict equality `a === b` as used by `Array.prototype.indexOf`
and the `item[key] !== val` subset match: structural on primitives,
`NaN !== NaN`, and `false` between distinct composite values (JS compares
composites by reference; at the analysed call sites the operands come from
different trees, so they are never the same reference). -/
def strictEq : Val → Val → Bool
  | .vundef, .vundef => true
  | .vnull, .vnull => true
  | .vbool a, .vbool b => a = b
  | .vnum a, .vnum b => a = b
  | .vstr a, .vstr b => a = b
  | _, _ => false

/-- `SameValueZero` as used by `Array.prototype.includes`: like `strictEq`
but `NaN` equals `NaN`. -/
def sameValueZero : Val → Val → Bool
  | .vnan, .vnan => true
  | a, b => strictEq a b

/-! ## Delta engine (`src/lib/delta-engine.js`) -/

/-- State machine for the global regex replace
`path.replace(/\[(\d+)\]/g, '.$1')` in `DeltaEngine.parsePath`: in the
`none` state characters pass through and `[` opens a candidate group; in the
`some ds` state digits are collected until `]` closes a non-empty group
(emitted as `.` + digits) or the candidate fails (emitted verbatim, the
scan resuming at the failing character exactly as the regex engine does). -/
def bracketRW : Option (List Char) → List Char → List Char
  | none, [] => []
  | none, c :: rest =>
    if c = '[' then bracketRW (some []) rest else c :: bracketRW none rest
  | some ds, [] => '[' :: ds.reverse
  | some ds, c :: rest =>
    if c.isDigit then bracketRW (some (c :: ds)) rest
    else if c = ']' then
      if ds.isEmpty then '[' :: ']' :: bracketRW none rest
      else '.' :: ds.reverse ++ bracketRW none rest
    else if c = '[' then '[' :: ds.reverse ++ bracketRW (some []) rest
    else '[' :: ds.reverse ++ c :: bracketRW none rest

/-- The bracket-index rewrite of `DeltaEngine.parsePath` (see `bracketRW`). -/
def bracketRewrite (cs : List Char) : List Char :=
  bracketRW none cs

/-- `DeltaEngine.parsePath`: an array path is returned unchanged; a string
path is tokenized on `.` after bracket rewriting, dropping empty tokens; any
other value throws `Invalid path type`.  String tokens stay strings — the
source performs no numeric coercion on them. -/
def parsePath : Val → Except String (List Val)
  | .varr xs => .ok xs
  | .vstr s =>
    .ok ((((splitOnChar '.' (bracketRewrite s.data)).map String.mk).filter
      (fun t => t.length > 0)).map Val.vstr)
  | v => .error ("Invalid path type: " ++ jsTypeof v)

/-- The key-walking loop of `DeltaEngine.getNestedValue`: a `null` or
`undefined` base short-circuits to `undefined` before each step; property
keys are coerced to strings. -/
def getNested : Val → List Val → Val
  | cur, [] => cur
  | .vnull, _ :: _ => .vundef
  | .vundef, _ :: _ => .vundef
  | cur, k :: ks => getNested (getProp cur (jsToStr k)) ks

/-- `DeltaEngine.getNestedValue` (parses the path, then walks it). -/
def getNestedValue (obj path : Val) : Except String Val := do
  let ks ← parsePath path
  pure (getNested obj ks)

/-- The walking/creating loop of `DeltaEngine.setNestedValue`: intermediate
`undefined`/`null` links are replaced by a fresh `[]` when the *next* key is
purely numeric, else a fresh `{}`; the final key is assigned.  The JS
original mutates the shared structure in place, so a failure deep in the walk
can leave freshly created intermediate containers behind; this pure model
returns the pre-call document on failure instead (no theorem below observes
the residue of a failed set). -/
def childFor (cur : Val) (ks : String) (k2 : Val) : Val :=
  match getProp cur ks with
  | .vundef => if isDigits (jsToStr k2) then Val.varr [] else Val.vobj []
  | .vnull => if isDigits (jsToStr k2) then Val.varr [] else Val.vobj []
  | c => c

/-- The recursion of `DeltaEngine.setNestedValue` (see `childFor` for the
intermediate-container step). -/
def setNested (cur : Val) (keys : List Val) (v : Val) : Except String Val :=
  match keys with
  | [] => .error "Empty path"
  | [k] => assignProp cur (jsToStr k) v
  | k :: k2 :: rest => do
    let child' ← setNested (childFor cur (jsToStr k) k2) (k2 :: rest) v
    assignProp cur (jsToStr k) child'

/-- `DeltaEngine.setNestedValue`. -/
def setNestedValue (obj path v : Val) : Except String Val := do
  let ks ← parsePath path
  setNested obj ks v

/-- The walk of `DeltaEngine.deleteNestedValue`: returns the (possibly
updated) document and whether a deletion happened.  A missing intermediate
returns `false`; at the leaf, arrays splice a `parseInt`-coerced in-range
index, objects delete an own key, and any other container is a no-op. -/
def deleteNested (cur : Val) (keys : List Val) : Val × Bool :=
  match keys with
  | [] => (cur, false)
  | [k] =>
    let ks := jsToStr k
    match cur with
    | .varr xs =>
      (match jsParseInt ks with
       | some i =>
         if 0 ≤ i ∧ i < (xs.length : Int) then
           (.varr (xs.eraseIdx i.toNat), true)
         else (.varr xs, false)
       | none => (.varr xs, false))
    | .vobj fs =>
      if objHas fs ks then (.vobj (objDelete fs ks), true) else (.vobj fs, false)
    | cur => (cur, false)
  | k :: k2 :: rest =>
    let ks := jsToStr k
    let child := getProp cur ks
    match child with
    | .vundef => (cur, false)
    | .vnull => (cur, false)
    | child =>
      let (child', b) := deleteNested child (k2 :: rest)
      -- the JS original mutates `child` in place; write the updated child
      -- back into its (object/array) container
      match cur with
      | .vobj fs => (.vobj (objSet fs ks child'), b)
      | .varr xs =>
        (match canonIndex ks with
         | some i => (.varr (arrSet xs i child'), b)
         | none => (.varr xs, b))
      | cur => (cur, b)

/-- `DeltaEngine.deleteNestedValue`. -/
def deleteNestedValue (obj path : Val) : Except String (Val × Bool) := do
  let ks ← parsePath path
  if ks.isEmpty then pure (obj, false)
  else pure (deleteNested obj ks)

/-- `Object.values(OPERATION_TYPES)` from the source. -/
def OPERATION_TYPES : List String :=
  ["set", "add", "remove", "append", "increment", "delete"]

/-- A delta operation `{op, path, value}`; a missing field is `vundef`
(reading an absent property of the operation object yields `undefined`). -/
structure Operation where
  op : Val
  path : Val
  value : Val
deriving Repr

/-- `Object.values(OPERATION_TYPES).includes(operation.op)`. -/
def opKindKnown : Val → Bool
  | .vstr s => OPERATION_TYPES.contains s
  | _ => false

/-- `DeltaEngine.validate` on a non-null operation: accumulated error
messages.  Note that the source's check of `operation.value` has an empty
body — a missing `value` adds no error for any kind. -/
def validateErrors (o : Operation) : List String :=
  (if truthy o.op then
     if opKindKnown o.op then [] else ["Unknown operation type: " ++ jsToStr o.op]
   else ["Missing operation type (op)"])
  ++ (if truthy o.path then [] else ["Missing path"])

/-- `DeltaEngine.validate` (the `null`/`undefined`-operation guard included). -/
def validate (o : Option Operation) : Bool × List String :=
  match o with
  | none => (false, ["Operation is null or undefined"])
  | some o => ((validateErrors o).isEmpty, validateErrors o)

/-- `DeltaEngine.applySet`. -/
def applySet (data path value : Val) : Except String Val :=
  setNestedValue data path value

/-- `DeltaEngine.applyAdd`: create `[value]` at a missing path, push into an
array (skipping the push when a string/number `value` is already `includes`d),
or coerce a non-array current value to `[current, value]`. -/
def applyAdd (data path value : Val) : Except String Val := do
  let current ← getNestedValue data path
  match current with
  | .vundef => setNestedValue data path (.varr [value])
  | .vnull => setNestedValue data path (.varr [value])
  | .varr xs =>
    if jsTypeof value = "string" ∨ jsTypeof value = "number" then
      if xs.any (fun x => sameValueZero x value) then pure data
      else setNestedValue data path (.varr (xs ++ [value]))
    else setNestedValue data path (.varr (xs ++ [value]))
  | current => setNestedValue data path (.varr [current, value])

/-- The element-matching callback of `REMOVE`'s object branch: for a
non-object item the callback answers `false`; for an object-typed item it
enumerates `Object.entries(value)` — which throws a `TypeError` when `value`
is `null` — and matches when every entry agrees with the item. -/
def removeMatch (value item : Val) : Except String Bool :=
  if jsTypeof item ≠ "object" then pure false
  else do
    let entries ←
      match value with
      | .vobj fs => pure fs
      | .varr xs => pure (xs.enum.map (fun p => (toString p.1, p.2)))
      | _ => Except.error "TypeError: Cannot convert undefined or null to object"
    pure (entries.all (fun e => strictEq (getProp item e.1) e.2))

/-- `Array.prototype.findIndex` with a callback that may throw. -/
def findIndexE (f : Val → Except String Bool) : List Val → Nat → Except String (Option Nat)
  | [], _ => pure none
  | x :: xs, i => do
    let b ← f x
    if b then pure (some i) else findIndexE f xs (i + 1)

/-- `DeltaEngine.applyRemove`: a non-array current value is a warned no-op;
a string/number `value` removes the first strictly-equal element; an
object-typed `value` (including `null`, since `typeof null === 'object'`)
removes the first object element matching every key/value entry of `value` —
enumerating the entries of a `null` value throws. -/
def applyRemove (data path value : Val) : Except String Val := do
  let current ← getNestedValue data path
  match current with
  | .varr xs =>
    if jsTypeof value = "string" ∨ jsTypeof value = "number" then
      match xs.findIdx? (fun x => strictEq x value) with
      | some i => setNestedValue data path (.varr (xs.eraseIdx i))
      | none => pure data
    else if jsTypeof value = "object" then do
      let idx ← findIndexE (removeMatch value) xs 0
      match idx with
      | some i => setNestedValue data path (.varr (xs.eraseIdx i))
      | none => pure data
    else pure data
  | _ => pure data

/-- `DeltaEngine.applyAppend`: like `applyAdd` but never deduplicates. -/
def applyAppend (data path value : Val) : Except String Val := do
  let current ← getNestedValue data path
  match current with
  | .vundef => setNestedValue data path (.varr [value])
  | .vnull => setNestedValue data path (.varr [value])
  | .varr xs => setNestedValue data path (.varr (xs ++ [value]))
  | current => setNestedValue data path (.varr [current, value])

/-- The string normalization inside `applyIncrement`: trim, then `".x" ↦
"0.x"` and `"-.x" ↦ "-0.x"`. -/
def incrementNormalize (s : String) : String :=
  let n := jsTrim s
  if jsStartsWith n "." then "0" ++ n
  else if jsStartsWith n "-." then "-0" ++ String.mk (n.data.drop 1)
  else n

/-- The increment amount computed by `applyIncrement` before the `isNaN`
guard: numbers pass through (`NaN` included), strings are normalized then
`parseFloat`ed, anything else is `parseFloat` of its string coercion. -/
def incrementAmount (value : Val) : Option Rat :=
  match value with
  | .vnum q => some q
  | .vnan => none
  | .vstr s => jsParseFloat (incrementNormalize s)
  | v => jsParseFloat (jsToStr v)

/-- `DeltaEngine.applyIncrement`: an unparsable increment is warned and
treated as `0`; a non-number current value is coerced to `0`; the sum is
written back through `setNestedValue`. -/
def applyIncrement (data path value : Val) : Except String Val := do
  let current ← getNestedValue data path
  let increment : Rat :=
    match incrementAmount value with
    | some q => q
    | none => 0
  let currentNum : Rat :=
    match current with
    | .vnum q => q
    | _ => 0
  setNestedValue data path (.vnum (currentNum + increment))

/-- `DeltaEngine.applyDelete`. -/
def applyDelete (data path : Val) : Except String Val := do
  let r ← deleteNestedValue data path
  pure r.1

/-- `DeltaEngine.apply`: validate (throwing on failure), read the old value
for the history entry (this parses the path and can throw `Invalid path
type`), then dispatch on the operation kind.  The history buffer itself is
write-only state and is not modelled. -/
def apply (data : Val) (o : Operation) : Except String Val := do
  let (valid, errors) := validate (some o)
  if valid then do
    let _oldValue ← getNestedValue data o.path
    match o.op with
    | .vstr "set" => applySet data o.path o.value
    | .vstr "add" => applyAdd data o.path o.value
    | .vstr "remove" => applyRemove data o.path o.value
    | .vstr "append" => applyAppend data o.path o.value
    | .vstr "increment" => applyIncrement data o.path o.value
    | .vstr "delete" => applyDelete data o.path
    | op => Except.error ("Unhandled operation type: " ++ jsToStr op)
  else
    Except.error ("Invalid operation: " ++ String.intercalate ", " errors)

/-- One entry of `applyBatch`'s result list. -/
structure OpResult where
  success : Bool
  error : Option String
deriving Repr

/-- `DeltaEngine.applyBatch`: apply the operations in order, catching each
failure per-operation (the document is left as it was before the failing
operation) and recording one result per operation. -/
def applyBatch (data : Val) (ops : List Operation) : Val × List OpResult :=
  ops.foldl
    (fun (acc : Val × List OpResult) o =>
      match apply acc.1 o with
      | .ok d => (d, acc.2 ++ [⟨true, none⟩])
      | .error e => (acc.1, acc.2 ++ [⟨false, some e⟩]))
    (data, [])

/-! ## NPC registry (`NPCRegistry`) -/

/-- JS `a || b`. -/
def truthyOr (a b : Val) : Val := if truthy a then a else b

/-- `Array.prototype.join(sep)`: `null`/`undefined` elements render empty. -/
def jsJoin (sep : String) (xs : List Val) : String :=
  String.intercalate sep (xs.map (fun x =>
    match x with
    | .vundef => ""
    | .vnull => ""
    | x => jsToStr x))

/-- `MINOR_NPC_SCHEMA` from the source. -/
def MINOR_NPC_SCHEMA : Val :=
  .vobj [
    ("meta", .vobj [
      ("npcId", .vstr ""), ("name", .vstr ""), ("classification", .vstr "minor"),
      ("firstAppearance", .vstr ""), ("lastSeen", .vstr ""),
      ("appearanceCount", .vnum 0), ("userPinned", .vbool false),
      ("createdAt", .vstr ""), ("lastUpdated", .vstr "")]),
    ("data", .vobj [
      ("notes", .vstr ""), ("sentiment", .vstr ""), ("lastContext", .vstr "")])]

/-- `MAJOR_NPC_SCHEMA` from the source. -/
def MAJOR_NPC_SCHEMA : Val :=
  .vobj [
    ("meta", .vobj [
      ("npcId", .vstr ""), ("name", .vstr ""), ("classification", .vstr "major"),
      ("firstAppearance", .vstr ""), ("lastSeen", .vstr ""),
      ("appearanceCount", .vnum 0), ("userPinned", .vbool false),
      ("promotedFrom", .vnull), ("promotionReason", .vstr ""),
      ("createdAt", .vstr ""), ("lastUpdated", .vstr "")]),
    ("trackers", .vobj [
      ("status", .vobj [
        ("health", .vstr "Unknown"), ("energy", .vstr "Unknown"),
        ("mood", .vstr "Unknown"), ("conditions", .varr [])]),
      ("appearance", .vobj [("clothing", .vstr ""), ("physical", .vstr "")]),
      ("inventory", .vobj [
        ("equipped", .vobj [("mainHand", .vstr "Unknown"), ("offHand", .vstr "Unknown")]),
        ("bag", .varr [])]),
      ("personality", .vobj [
        ("traits", .varr []), ("goals", .varr []), ("fears", .varr []),
        ("motivations", .vstr "")]),
      ("relationships", .vobj []),
      ("knowledge", .varr [])]),
    ("timeline", .varr []),
    ("narrativeRole", .vobj [
      ("archetype", .vstr ""), ("storyFunction", .vstr ""),
      ("conflictsWith", .varr []), ("alliedWith", .varr [])])]

/-- The in-memory NPC registry document (`NPC_REGISTRY_SCHEMA` instance):
the id-keyed NPC map and the scene list touched by the modelled methods.
The remaining registry fields (`meta` counters, `currentScene`,
`activeNPCs`) and the debounced persistence layer (`save`, `load`,
`updateCounts`) are not read by any modelled operation. -/
structure Registry where
  npcs : List (String × Val)
  recentlyMentioned : List String
deriving Repr

/-- `NPCRegistry.hasNPC`: `npcs[npcId] !== undefined`. -/
def hasNPC (reg : Registry) (npcId : String) : Bool :=
  !(strictEq (objGet reg.npcs npcId) .vundef)

/-- `NPCRegistry.getNPC`: `npcs[npcId] || null`, as a truthiness-tested
value (`vnull` plays the role of the `null` fallback). -/
def getNPC (reg : Registry) (npcId : String) : Val :=
  truthyOr (objGet reg.npcs npcId) .vnull

/-- `NPCRegistry.generateNpcId`: `null` for a falsy name, otherwise
`npc_` + lowercase name with whitespace runs collapsed to `_` and remaining
non-`[a-z0-9_]` characters stripped. -/
def generateNpcId (name : String) : Option String :=
  if name = "" then none
  else
    let lower := jsToLower name
    let underscored :=
      (lower.data.foldl
        (fun (acc : List Char × Bool) c =>
          if jsWhitespace c then
            if acc.2 then acc else (acc.1 ++ ['_'], true)
          else (acc.1 ++ [c], false))
        ([], false)).1
    let kept := underscored.filter (fun c => c.isLower ∨ c.isDigit ∨ c = '_')
    some ("npc_" ++ String.mk kept)

/-- The sighting refresh shared by `getOrCreate` and `markAsMentioned`:
`npc.meta.lastSeen = now; npc.meta.appearanceCount++` (the `++` coerces a
non-numeric count via `ToNumber`, producing `NaN` when unconvertible).
Errors model the strict-mode `TypeError`s of assigning through a malformed
record. -/
def npcTouch (now : String) (npc : Val) : Except String Val := do
  let meta := getProp npc "meta"
  let meta ← assignProp meta "lastSeen" (.vstr now)
  let cnt := getProp meta "appearanceCount"
  let cnt' : Val :=
    match toNumber cnt with
    | some q => .vnum (q + 1)
    | none => .vnan
  let meta ← assignProp meta "appearanceCount" cnt'
  assignProp npc "meta" meta

/-- `NPCRegistry.markAsMentioned`: no-op (`false`) for an untracked id;
otherwise remove the id's earlier occurrence from `recentlyMentioned`, push
it at the front, truncate to 10 entries (`splice(10)`), and refresh the
NPC's `lastSeen`/`appearanceCount` when the stored record is truthy. -/
def markAsMentioned (now : String) (reg : Registry) (npcId : String) :
    Except String (Registry × Bool) :=
  if hasNPC reg npcId then do
    let mentioned := (npcId :: reg.recentlyMentioned.erase npcId).take 10
    let npcV := getNPC reg npcId
    if truthy npcV then do
      let npc' ← npcTouch now npcV
      pure ({ npcs := objSet reg.npcs npcId npc', recentlyMentioned := mentioned }, true)
    else
      pure ({ reg with recentlyMentioned := mentioned }, true)
  else pure (reg, false)

/-- The transition-intent object returned by `setClassification` when a
change is required: `{ npc, currentClassification, targetClassification,
reason }`. -/
structure TransitionIntent where
  npc : Val
  currentClassification : Val
  targetClassification : String
  reason : String
deriving Repr

/-- `NPCRegistry.setClassification`: `null` (`none`) for an untracked id;
the unchanged record (`Sum.inl`) when the entity is already at the target
classification **or is user-pinned**; otherwise a transition intent
(`Sum.inr`) — the actual migration is left to the classifier.  The method
performs no mutation on any path. -/
def setClassification (reg : Registry) (npcId classification reason : String) :
    Option (Val ⊕ TransitionIntent) :=
  if hasNPC reg npcId then
    let npc := getNPC reg npcId
    let currentClassification := getProp (getProp npc "meta") "classification"
    if strictEq currentClassification (.vstr classification) then some (.inl npc)
    else if truthy (getProp (getProp npc "meta") "userPinned") then some (.inl npc)
    else some (.inr ⟨npc, currentClassification, classification, reason⟩)
  else none

/-- `NPCRegistry.replaceNPC`: store `newData` under `npcId` unconditionally. -/
def replaceNPC (reg : Registry) (npcId : String) (newData : Val) : Registry × Bool :=
  ({ reg with npcs := objSet reg.npcs npcId newData }, true)

/-- The `options` bag accepted by `NPCRegistry.getOrCreate` (fields read:
`classification`, `notes`, `sentiment`; absent fields are `undefined`). -/
structure CreateOptions where
  classification : Val := .vundef
  notes : Val := .vundef
  sentiment : Val := .vundef
deriving Repr

/-- `NPCRegistry.getOrCreate`: resolve the name to an id (`null` name →
`null` result); an existing NPC is touched as a sighting and returned; a new
NPC is cloned from the schema selected by `options.classification ||
'minor'`, stamped with identity and timestamps, seeded from truthy
`options.notes` / `options.sentiment`, and stored. -/
def getOrCreate (now : String) (reg : Registry) (name : String)
    (options : CreateOptions) : Except String (Registry × Option Val) := do
  match generateNpcId name with
  | none => pure (reg, none)
  | some npcId =>
    if hasNPC reg npcId then do
      let npc' ← npcTouch now (getNPC reg npcId)
      pure ({ reg with npcs := objSet reg.npcs npcId npc' }, some npc')
    else do
      let classification := truthyOr options.classification (.vstr "minor")
      let base :=
        if strictEq classification (.vstr "major") then MAJOR_NPC_SCHEMA
        else MINOR_NPC_SCHEMA
      let meta := getProp base "meta"
      let meta ← assignProp meta "npcId" (.vstr npcId)
      let meta ← assignProp meta "name" (.vstr name)
      let meta ← assignProp meta "classification" classification
      let meta ← assignProp meta "firstAppearance" (.vstr now)
      let meta ← assignProp meta "lastSeen" (.vstr now)
      let meta ← assignProp meta "appearanceCount" (.vnum 1)
      let meta ← assignProp meta "createdAt" (.vstr now)
      let meta ← assignProp meta "lastUpdated" (.vstr now)
      let npcData ← assignProp base "meta" meta
      let npcData ←
        if truthy options.notes then
          if strictEq classification (.vstr "major") = false then do
            let d ← assignProp (getProp npcData "data") "notes" options.notes
            assignProp npcData "data" d
          else do
            let trackers := getProp npcData "trackers"
            let knowledge := getProp trackers "knowledge"
            match knowledge with
            | .varr xs => do
              let trackers ← assignProp trackers "knowledge" (.varr (xs ++ [options.notes]))
              assignProp npcData "trackers" trackers
            | _ => Except.error "TypeError: push is not a function"
        else pure npcData
      let npcData ←
        if truthy options.sentiment then
          if strictEq classification (.vstr "major") = false then do
            let d ← assignProp (getProp npcData "data") "sentiment" options.sentiment
            assignProp npcData "data" d
          else do
            let trackers := getProp npcData "trackers"
            let rel ← assignProp (getProp trackers "relationships") "mainCharacter"
              (.vobj [("sentiment", options.sentiment), ("trustLevel", .vnum 50)])
            let trackers ← assignProp trackers "relationships" rel
            assignProp npcData "trackers" trackers
        else pure npcData
      pure ({ reg with npcs := objSet reg.npcs npcId npcData }, some npcData)

/-- `NPCRegistry.applyOperations`: `false` when the id is untracked or the
operation list is empty; otherwise apply each operation to the stored record
through the delta engine, swallowing per-operation failures, then stamp
`meta.lastUpdated`. -/
def applyOperations (now : String) (reg : Registry) (npcId : String)
    (ops : List Operation) : Except String (Registry × Bool) :=
  if hasNPC reg npcId = false ∨ ops.length = 0 then pure (reg, false)
  else do
    let npc := objGet reg.npcs npcId
    let npc := ops.foldl
      (fun n o => match apply n o with | .ok n' => n' | .error _ => n) npc
    let meta ← assignProp (getProp npc "meta") "lastUpdated" (.vstr now)
    let npc ← assignProp npc "meta" meta
    pure ({ reg with npcs := objSet reg.npcs npcId npc }, true)

/-! ## NPC classifier (`migrateToMajor`, `migrateToMinor`, remapping,
`executeClassificationActions`, manual `promoteNPC`/`demoteNPC`) -/

/-- `String.prototype.includes` for a non-empty pattern. -/
def strIncludes (s pat : String) : Bool :=
  containsSub s.data pat.data

/-- `getSentimentTrustLevel`: falsy sentiment is neutral `50`; a string is
lower-cased and scanned for keyword families; a truthy non-string would
throw on `.toLowerCase()`. -/
def getSentimentTrustLevel (sentiment : Val) : Except String Rat :=
  if truthy sentiment = false then pure 50
  else
    match sentiment with
    | .vstr s =>
      let l := jsToLower s
      if strIncludes l "friend" ∨ strIncludes l "ally" ∨ strIncludes l "love" ∨
          strIncludes l "trust" then pure 75
      else if strIncludes l "warm" ∨ strIncludes l "positive" ∨
          strIncludes l "helpful" ∨ strIncludes l "kind" then pure 65
      else if strIncludes l "enemy" ∨ strIncludes l "hostile" ∨
          strIncludes l "hate" ∨ strIncludes l "distrust" then pure 15
      else if strIncludes l "cold" ∨ strIncludes l "negative" ∨
          strIncludes l "suspicious" ∨ strIncludes l "wary" then pure 30
      else pure 50
    | _ => Except.error "TypeError: sentiment.toLowerCase is not a function"

/-- `migrateToMajor`: expand a minor sidecar to the major schema — meta is
copied with `classification = 'major'`, `promotedFrom = 'minor'` and
fallbacks for missing fields; truthy `data.notes` seeds `knowledge` and a
"First tracked" timeline entry; truthy `data.sentiment` seeds
`relationships.mainCharacter` with a derived trust level; truthy
`data.lastContext` appends a timeline entry.  (The source guards the three
seeds with `if (minorSidecar.data)`; reading `notes`/`sentiment`/
`lastContext` off a falsy or non-object `data` yields `undefined`, so the
inner truthiness tests subsume that guard.) -/
def migrateToMajor (now : String) (minorSidecar : Val) (reason : String) :
    Except String Val := do
  if truthy minorSidecar = false ∨ truthy (getProp minorSidecar "meta") = false then
    Except.error "Invalid minor sidecar provided for migration"
  else
    let m := getProp minorSidecar "meta"
    let d := getProp minorSidecar "data"
    let meta : Val := .vobj [
      ("npcId", getProp m "npcId"), ("name", getProp m "name"),
      ("classification", .vstr "major"),
      ("firstAppearance", getProp m "firstAppearance"),
      ("lastSeen", truthyOr (getProp m "lastSeen") (.vstr now)),
      ("appearanceCount", truthyOr (getProp m "appearanceCount") (.vnum 1)),
      ("userPinned", truthyOr (getProp m "userPinned") (.vbool false)),
      ("promotedFrom", .vstr "minor"), ("promotionReason", .vstr reason),
      ("createdAt", truthyOr (getProp m "createdAt") (.vstr now)),
      ("lastUpdated", .vstr now)]
    let knowledge : List Val :=
      if truthy (getProp d "notes") then [getProp d "notes"] else []
    let timeline : List Val :=
      (if truthy (getProp d "notes") then
        [Val.vobj [
          ("event", .vstr ("First tracked: " ++ jsToStr (getProp d "notes"))),
          ("timestamp", truthyOr (getProp m "firstAppearance") (.vstr now))]]
       else [])
      ++
      (if truthy (getProp d "lastContext") then
        [Val.vobj [
          ("event", getProp d "lastContext"),
          ("timestamp", truthyOr (getProp m "lastSeen") (.vstr now))]]
       else [])
    let relationships : Val ←
      if truthy (getProp d "sentiment") then do
        let trust ← getSentimentTrustLevel (getProp d "sentiment")
        pure (Val.vobj [("mainCharacter", .vobj [
          ("sentiment", getProp d "sentiment"), ("trustLevel", .vnum trust),
          ("notes", .vstr "Relationship established during minor tracking")])])
      else pure (Val.vobj [])
    pure (.vobj [
      ("meta", meta),
      ("trackers", .vobj [
        ("status", .vobj [
          ("health", .vstr "Unknown"), ("energy", .vstr "Unknown"),
          ("mood", .vstr "Unknown"), ("conditions", .varr [])]),
        ("appearance", .vobj [("clothing", .vstr ""), ("physical", .vstr "")]),
        ("inventory", .vobj [
          ("equipped", .vobj [("mainHand", .vstr "Unknown"), ("offHand", .vstr "Unknown")]),
          ("bag", .varr [])]),
        ("personality", .vobj [
          ("traits", .varr []), ("goals", .varr []), ("fears", .varr []),
          ("motivations", .vstr "")]),
        ("relationships", relationships),
        ("knowledge", .varr knowledge)]),
      ("timeline", .varr timeline),
      ("narrativeRole", .vobj [
        ("archetype", .vstr ""), ("storyFunction", .vstr ""),
        ("conflictsWith", .varr []), ("alliedWith", .varr [])])])

/-- `x?.length > 0` for the optional-chained length tests in
`migrateToMinor` (`undefined > 0` is `false`; only arrays and strings have a
numeric `length` in this model). -/
def jsLenPos : Val → Bool
  | .varr xs => xs.length > 0
  | .vstr s => s.length > 0
  | _ => false

/-- `Object.values(v)` as used on `trackers?.relationships || {}`. -/
def objectValues : Val → List Val
  | .vobj fs => fs.map (·.2)
  | .varr xs => xs
  | .vstr s => s.data.map (fun c => .vstr ⟨[c]⟩)
  | _ => []

/-- `migrateToMinor`: condense a major sidecar — meta is copied with
`classification = 'minor'`; `notes` concatenates (with `". "`) up to 3
personality traits, motivations, the narrative-role archetype and story
function, the last timeline event and the last 2 knowledge entries, falling
back to the entity name when all are absent; `sentiment` comes from
`relationships.mainCharacter`, else the first relationship, else
`'Neutral'`; `lastContext` is the last timeline event's text. -/
def migrateToMinor (now : String) (majorSidecar : Val) (_reason : String) :
    Except String Val := do
  if truthy majorSidecar = false ∨ truthy (getProp majorSidecar "meta") = false then
    Except.error "Invalid major sidecar provided for migration"
  else
    let m := getProp majorSidecar "meta"
    let trackers := getProp majorSidecar "trackers"
    let timeline := getProp majorSidecar "timeline"
    let meta : Val := .vobj [
      ("npcId", getProp m "npcId"), ("name", getProp m "name"),
      ("classification", .vstr "minor"),
      ("firstAppearance", getProp m "firstAppearance"),
      ("lastSeen", truthyOr (getProp m "lastSeen") (.vstr now)),
      ("appearanceCount", truthyOr (getProp m "appearanceCount") (.vnum 1)),
      ("userPinned", truthyOr (getProp m "userPinned") (.vbool false)),
      ("createdAt", truthyOr (getProp m "createdAt") (.vstr now)),
      ("lastUpdated", .vstr now)]
    let personality := getProp trackers "personality"
    let noteParts : List String :=
      (if truthy personality then
        (if jsLenPos (getProp personality "traits") then
          [("Traits: " ++ jsJoin ", " (match getProp personality "traits" with
            | .varr xs => xs.take 3
            | _ => []))]
         else [])
        ++
        (if truthy (getProp personality "motivations") then
          [("Motivation: " ++ jsToStr (getProp personality "motivations"))]
         else [])
       else [])
      ++
      (let nr := getProp majorSidecar "narrativeRole"
       if truthy nr then
        (if truthy (getProp nr "archetype") then
          [("Role: " ++ jsToStr (getProp nr "archetype"))] else [])
        ++
        (if truthy (getProp nr "storyFunction") then
          [("Function: " ++ jsToStr (getProp nr "storyFunction"))] else [])
       else [])
      ++
      (match timeline with
       | .varr xs =>
         if xs.length > 0 then
           [("Last known: " ++ jsToStr (getProp (xs.getLastD .vundef) "event"))]
         else []
       | _ => [])
      ++
      (match getProp trackers "knowledge" with
       | .varr xs =>
         if xs.length > 0 then
           [("Knows: " ++ jsJoin "; " (xs.drop (xs.length - 2)))]
         else []
       | _ => [])
    let joined := String.intercalate ". " noteParts
    let notes : Val := if joined ≠ "" then .vstr joined else getProp m "name"
    let mainChar := getProp (getProp trackers "relationships") "mainCharacter"
    let sentiment : Val :=
      if truthy mainChar then truthyOr (getProp mainChar "sentiment") (.vstr "Neutral")
      else
        let rels := objectValues (truthyOr (getProp trackers "relationships") (.vobj []))
        match rels with
        | r :: _ => truthyOr (getProp r "sentiment") (.vstr "Neutral")
        | [] => .vstr "Neutral"
    let lastContext : Val :=
      match timeline with
      | .varr xs =>
        if xs.length > 0 then getProp (xs.getLastD .vundef) "event" else .vstr ""
      | _ => .vstr ""
    pure (.vobj [
      ("meta", meta),
      ("data", .vobj [
        ("notes", notes), ("sentiment", sentiment), ("lastContext", lastContext)])])

/-- The per-operation body of `remapOperationsForClassification`'s `map`:
clone the operation, then rewrite path (and sometimes kind/value) according
to the target classification.  The minor branch calls `.startsWith` on the
path, which throws for a non-string path; the major branch only uses strict
equality.  The `classification` argument is whatever value
`npc.meta.classification` (or `createAction.classification`) holds. -/
def remapOne (now : String) (classification : Val) (o : Operation) :
    Except String Operation :=
  if strictEq classification (.vstr "minor") then
    match o.path with
    | .vstr p =>
      if jsStartsWith p "trackers.status.mood" then
        pure { o with path := .vstr "data.sentiment" }
      else if jsStartsWith p "trackers." then
        pure { o with path := .vstr "data.notes", op := .vstr "set" }
      else if jsStartsWith p "narrativeRole." then
        pure { o with path := .vstr "data.notes", op := .vstr "set" }
      else pure o
    | _ => Except.error "TypeError: remappedOp.path.startsWith is not a function"
  else if strictEq classification (.vstr "major") then
    if strictEq o.path (.vstr "data.notes") then
      pure { o with path := .vstr "trackers.knowledge", op := .vstr "add" }
    else if strictEq o.path (.vstr "data.sentiment") then
      pure { o with path := .vstr "trackers.relationships.mainCharacter.sentiment" }
    else if strictEq o.path (.vstr "data.lastContext") then
      pure (Operation.mk (.vstr "append") (.vstr "timeline")
        (.vobj [("event", o.value), ("timestamp", .vstr now)]))
    else pure o
  else pure o

/-- `remapOperationsForClassification`: map every operation through
`remapOne`, then keep only those with a truthy path and a value that is not
strictly `undefined`.  (The initial `!operations || !Array.isArray` guard is
discharged by the typed operation list.) -/
def remapOperationsForClassification (now : String) (ops : List Operation)
    (classification : Val) : Except String (List Operation) := do
  let mapped ← ops.mapM (remapOne now classification)
  pure (mapped.filter (fun o => truthy o.path ∧ strictEq o.value .vundef = false))

/-- One entry of `actions.creates` (built by `processClassifications`:
`classification = recommendedClassification || 'minor'`, `notes =
reasoning`, `sentiment = sentiment || 'Unknown'`, `updates`).  An absent
`updates` array behaves exactly like an empty one under
`updates?.length > 0`, so it is modelled as a list. -/
structure CreateAction where
  name : String
  classification : Val
  notes : Val
  sentiment : Val
  updates : List Operation
deriving Repr

/-- One entry of `actions.promotions` / `actions.demotions`. -/
structure MigrationAction where
  npcId : String
  name : String
  reason : String
  existingData : Val
deriving Repr

/-- One entry of `actions.updates`. -/
structure UpdateAction where
  npcId : String
  name : String
  operations : List Operation
deriving Repr

/-- The action bundle consumed by `executeClassificationActions`. -/
structure ClassificationActions where
  creates : List CreateAction := []
  promotions : List MigrationAction := []
  demotions : List MigrationAction := []
  updates : List UpdateAction := []
deriving Repr

/-- The `results` accumulator of `executeClassificationActions`; an error
entry is `(action, name, message)`. -/
structure ExecResults where
  created : List String := []
  promoted : List String := []
  demoted : List String := []
  updated : List String := []
  errors : List (String × String × String) := []
deriving Repr

/-- The `try` body of the create loop: `getOrCreate`, then (when updates are
present) remap them against the classification requested for the creation
and apply them to the new record. -/
def execCreateBody (now : String) (reg : Registry) (c : CreateAction) :
    Except String Registry := do
  let (reg, npcOpt) ← getOrCreate now reg c.name
    ⟨c.classification, c.notes, c.sentiment⟩
  let npc ←
    match npcOpt with
    | some n => pure n
    | none => Except.error "TypeError: Cannot read properties of null (reading 'meta')"
  if c.updates.length > 0 then do
    let remapped ← remapOperationsForClassification now c.updates c.classification
    let npcId := jsToStr (getProp (getProp npc "meta") "npcId")
    let (reg, _) ← applyOperations now reg npcId remapped
    pure reg
  else pure reg

/-- The `try` body of the update loop: look the entity up, and — only when
the stored record is truthy — remap the queued operations against the
record's **current** `meta.classification` and apply them.  Returns the new
registry and whether `results.updated` gets a push. -/
def execUpdateBody (now : String) (reg : Registry) (u : UpdateAction) :
    Except String (Registry × Bool) := do
  let npc := getNPC reg u.npcId
  if truthy npc then do
    let remapped ← remapOperationsForClassification now u.operations
      (getProp (getProp npc "meta") "classification")
    let (reg, _) ← applyOperations now reg u.npcId remapped
    pure (reg, true)
  else pure (reg, false)

/-- The creates loop of `executeClassificationActions`: each `try` body is
`execCreateBody`, a failure being recorded in `errors` without aborting the
remaining actions.  (On a caught failure the model keeps the registry state
from before the failing action; the JS original can retain partial in-place
mutations of the failing step — no theorem below exercises a failing
action.) -/
def execCreates (now : String) : Registry × ExecResults → List CreateAction →
    Registry × ExecResults :=
  List.foldl (fun acc c =>
    match execCreateBody now acc.1 c with
    | .ok reg' => (reg', { acc.2 with created := acc.2.created ++ [c.name] })
    | .error e => (acc.1, { acc.2 with errors := acc.2.errors ++ [("create", c.name, e)] }))

/-- The promotions loop: `migrateToMajor` the action's `existingData`
snapshot and commit it with `replaceNPC`, catching migration failures. -/
def execPromotions (now : String) : Registry × ExecResults → List MigrationAction →
    Registry × ExecResults :=
  List.foldl (fun acc p =>
    match migrateToMajor now p.existingData p.reason with
    | .ok majorSidecar =>
      ((replaceNPC acc.1 p.npcId majorSidecar).1,
        { acc.2 with promoted := acc.2.promoted ++ [p.name] })
    | .error e => (acc.1, { acc.2 with errors := acc.2.errors ++ [("promote", p.name, e)] }))

/-- The demotions loop (mirror of `execPromotions`). -/
def execDemotions (now : String) : Registry × ExecResults → List MigrationAction →
    Registry × ExecResults :=
  List.foldl (fun acc d =>
    match migrateToMinor now d.existingData d.reason with
    | .ok minorSidecar =>
      ((replaceNPC acc.1 d.npcId minorSidecar).1,
        { acc.2 with demoted := acc.2.demoted ++ [d.name] })
    | .error e => (acc.1, { acc.2 with errors := acc.2.errors ++ [("demote", d.name, e)] }))

/-- The updates loop: each entity's queued operations are remapped against
the entity's classification **as stored at this point of the batch** (see
`execUpdateBody`). -/
def execUpdates (now : String) : Registry × ExecResults → List UpdateAction →
    Registry × ExecResults :=
  List.foldl (fun acc u =>
    match execUpdateBody now acc.1 u with
    | .ok (reg', pushed) =>
      (reg', if pushed then { acc.2 with updated := acc.2.updated ++ [u.name] } else acc.2)
    | .error e => (acc.1, { acc.2 with errors := acc.2.errors ++ [("update", u.name, e)] }))

/-- `executeClassificationActions`: run the create actions, then the
promotions, then the demotions, then the queued per-entity operation-updates
— in the source, four sequential `for` loops over the action lists, each
with a per-action `try`/`catch`. -/
def executeClassificationActions (now : String) (reg : Registry)
    (actions : ClassificationActions) : Registry × ExecResults :=
  execUpdates now
    (execDemotions now
      (execPromotions now
        (execCreates now (reg, {}) actions.creates)
        actions.promotions)
      actions.demotions)
    actions.updates

/-- `promoteNPC` (manual promotion): `null` for an untracked id; an
already-major entity is returned unchanged; otherwise `migrateToMajor` +
`replaceNPC`, with a failed migration caught and turned into `null`.  Note
there is **no** `userPinned` check on this path. -/
def promoteNPC (now : String) (reg : Registry) (npcId reason : String) :
    Registry × Option Val :=
  let npc := getNPC reg npcId
  if truthy npc = false then (reg, none)
  else if strictEq (getProp (getProp npc "meta") "classification") (.vstr "major") then
    (reg, some npc)
  else
    match migrateToMajor now npc reason with
    | .ok majorSidecar => ((replaceNPC reg npcId majorSidecar).1, some majorSidecar)
    | .error _ => (reg, none)

/-- `demoteNPC` (manual demotion): mirror image of `promoteNPC`; again no
`userPinned` check. -/
def demoteNPC (now : String) (reg : Registry) (npcId reason : String) :
    Registry × Option Val :=
  let npc := getNPC reg npcId
  if truthy npc = false then (reg, none)
  else if strictEq (getProp (getProp npc "meta") "classification") (.vstr "minor") then
    (reg, some npc)
  else
    match migrateToMinor now npc reason with
    | .ok minorSidecar => ((replaceNPC reg npcId minorSidecar).1, some minorSidecar)
    | .error _ => (reg, none)

/-! ## Spec-side models

Definitions in this section follow the *specification's* words (not the
source); they exist only to be compared against the source-derived
definitions above. -/

/-- A path segment as the spec describes it: a string key or a non-negative
integer index. -/
inductive SpecSegment where
  | key : String → SpecSegment
  | idx : Nat → SpecSegment
deriving Repr, DecidableEq

/-- Modelled from the spec (§4.1 `parse`): a string is tokenized on `.`
after rewriting `[n]` to `.n`; each token is coerced to an integer segment
iff it matches `^\d+$`, else kept as a string segment; an already-parsed
segment list is returned unchanged; fails with `InvalidPath` only on an
empty resulting segment list. -/
def specParse (raw : String ⊕ List SpecSegment) : Except String (List SpecSegment) :=
  match raw with
  | .inr segs => .ok segs
  | .inl s =>
    let toks := (((splitOnChar '.' (bracketRewrite s.data)).map String.mk).filter
      (fun t => t.length > 0))
    let segs := toks.map (fun t => if isDigits t then SpecSegment.idx (digitsVal t.data) else SpecSegment.key t)
    if segs.isEmpty then .error "InvalidPath" else .ok segs

/-- The document-model value a spec segment denotes, for comparison with the
segments `DeltaEngine.parsePath` actually produces (an integer segment would
have to surface as a number there). -/
def segToVal : SpecSegment → Val
  | .key s => .vstr s
  | .idx n => .vnum n

/-- Modelled from the spec (§4.5): the batch executor as the spec describes
its ordering — queued operation-updates are remapped against the entity's
pre-migration classification and applied *before* any promotion/demotion of
that entity is performed, promotions/demotions then migrating the entity's
current (just-updated) record.  Only used as the formalization of claim C1's
asserted ordering, to be compared with `executeClassificationActions`. -/
def specOrderExecuteActions (now : String) (reg : Registry)
    (actions : ClassificationActions) : Registry × ExecResults :=
  let s1 := execCreates now (reg, {}) actions.creates
  let s2 := execUpdates now s1 actions.updates
  let s3 := actions.promotions.foldl (fun acc p =>
    match migrateToMajor now (getNPC acc.1 p.npcId) p.reason with
    | .ok majorSidecar =>
      ((replaceNPC acc.1 p.npcId majorSidecar).1,
        { acc.2 with promoted := acc.2.promoted ++ [p.name] })
    | .error e =>
      (acc.1, { acc.2 with errors := acc.2.errors ++ [("promote", p.name, e)] })) s2
  actions.demotions.foldl (fun acc d =>
    match migrateToMinor now (getNPC acc.1 d.npcId) d.reason with
    | .ok minorSidecar =>
      ((replaceNPC acc.1 d.npcId minorSidecar).1,
        { acc.2 with demoted := acc.2.demoted ++ [d.name] })
    | .error e =>
      (acc.1, { acc.2 with errors := acc.2.errors ++ [("demote", d.name, e)] })) s3

/-! ## Constructors, iteration helpers and concrete fixtures used by the
theorems -/

/-- A schema-shaped minor NPC record with every field value free: exactly
the shape produced by `getOrCreate` for a minor NPC (and assumed by the
spec's "Minor (lightweight) record"). -/
def mkMinorNPC (npcId name firstAppearance lastSeen : String) (count : Rat)
    (pin : Bool) (createdAt lastUpdated notes sentiment lastContext : String) : Val :=
  .vobj [
    ("meta", .vobj [
      ("npcId", .vstr npcId), ("name", .vstr name), ("classification", .vstr "minor"),
      ("firstAppearance", .vstr firstAppearance), ("lastSeen", .vstr lastSeen),
      ("appearanceCount", .vnum count), ("userPinned", .vbool pin),
      ("createdAt", .vstr createdAt), ("lastUpdated", .vstr lastUpdated)]),
    ("data", .vobj [
      ("notes", .vstr notes), ("sentiment", .vstr sentiment),
      ("lastContext", .vstr lastContext)])]

/-- The pure `recentlyMentioned` transition of one `markAsMentioned` call:
remove the id's first occurrence, push it at the front, truncate to 10. -/
def stepMentioned (l : List String) (a : String) : List String :=
  (a :: l.erase a).take 10

/-- Sequential `markAsMentioned` calls (all sharing one clock value; the
claim under test only concerns the mentioned list and counters). -/
def foldMentions (now : String) (reg : Registry) :
    List String → Except String Registry
  | [] => pure reg
  | id :: ids => do
    let (reg', _) ← markAsMentioned now reg id
    foldMentions now reg' ids

/-- Well-formedness used by the scene-list theorems: the stored record is an
object whose `meta` is an object (what every schema-shaped record
satisfies); enough for `npcTouch` to succeed. -/
def wfNpc (v : Val) : Prop :=
  ∃ fs mfs, v = .vobj fs ∧ objGet fs "meta" = .vobj mfs

/-- The record produced by a successful `npcTouch` on an object record with
object `meta` (the explicit value of the sighting refresh). -/
def npcTouched (now : String) (fs mfs : List (String × Val)) : Val :=
  let meta1 := objSet mfs "lastSeen" (.vstr now)
  let cnt : Val :=
    match toNumber (objGet meta1 "appearanceCount") with
    | some q => .vnum (q + 1)
    | none => .vnan
  .vobj (objSet fs "meta" (.vobj (objSet meta1 "appearanceCount" cnt)))

/-- Concrete fixture: a pinned minor NPC. -/
def bobPinned : Val := mkMinorNPC "npc_bob" "Bob" "T0" "T0" 1 true "T0" "T0" "" "" ""

/-- Concrete fixture: an unpinned minor NPC with empty payload fields. -/
def bobPlain : Val := mkMinorNPC "npc_bob" "Bob" "T0" "T0" 1 false "T0" "T0" "" "" ""

/-- Concrete fixture: a one-entity registry holding `bobPlain`. -/
def regPlain : Registry := ⟨[("npc_bob", bobPlain)], []⟩

/-- Concrete fixture: a one-entity registry holding `bobPinned`. -/
def regPinned : Registry := ⟨[("npc_bob", bobPinned)], []⟩

/-- Concrete fixture for the batch-ordering claim: one promotion and one
queued operation-update for the same entity in the same batch. -/
def actsPromoteAndUpdate : ClassificationActions :=
  { promotions := [⟨"npc_bob", "Bob", "r", bobPlain⟩],
    updates := [⟨"npc_bob", "Bob", [⟨.vstr "set", .vstr "data.notes", .vstr "x"⟩]⟩] }

/-- The timeline length of the record stored for an id (projection used to
discriminate executor results). -/
def timelineLength (reg : Registry) (npcId : String) : Nat :=
  match getProp (objGet reg.npcs npcId) "timeline" with
  | .varr xs => xs.length
  | _ => 0

/-- Concrete fixture: fifteen distinct NPC ids. -/
def ids15 : List String :=
  ["a", "b", "c", "d", "e", "f", "g", "h", "i", "j", "k", "l", "m", "n", "o"]

/-- Concrete fixture: a registry tracking the fifteen `ids15` NPCs with an
empty scene list. -/
def reg15 : Registry :=
  ⟨ids15.map (fun id => (id, mkMinorNPC id id "T0" "T0" 1 false "T0" "T0" "" "" "")), []⟩

/-! ## General lemmas about the embedding -/

theorem find?_objMap (fs : List (String × Val)) (k : String) (v : Val) :
    (fs.map (fun f => if f.1 = k then (k, v) else f)).find? (fun f => f.1 = k)
      = (fs.find? (fun f => f.1 = k)).map (fun _ => (k, v)) := by
  induction fs with
  | nil => simp
  | cons f fs ih =>
    by_cases hk : f.1 = k
    · simp [hk]
    · simp only [List.map_cons, if_neg hk]
      rw [List.find?_cons_of_neg _ (by simp [hk]),
        List.find?_cons_of_neg _ (by simp [hk]), ih]

theorem find?_of_not_objHas (fs : List (String × Val)) (k : String)
    (h : objHas fs k = false) : fs.find? (fun f => f.1 = k) = none := by
  rw [List.find?_eq_none]
  intro x hx
  simp only [objHas, List.any_eq_false, decide_eq_true_eq] at h
  simpa using h x hx

theorem objGet_objSet_self (fs : List (String × Val)) (k : String) (v : Val) :
    objGet (objSet fs k v) k = v := by
  unfold objSet
  by_cases hhas : objHas fs k
  · simp only [hhas, if_true, objGet, find?_objMap]
    have hsome : (fs.find? (fun f => f.1 = k)).isSome := by
      simp only [objHas, List.any_eq_true, decide_eq_true_eq] at hhas
      obtain ⟨x, hx, hxk⟩ := hhas
      simp only [List.find?_isSome]
      exact ⟨x, hx, by simp [hxk]⟩
    obtain ⟨f0, hf0⟩ := Option.isSome_iff_exists.mp hsome
    simp [hf0]
  · simp only [Bool.not_eq_true] at hhas
    have hnone := find?_of_not_objHas fs k hhas
    simp only [hhas, Bool.false_eq_true, if_false, objGet, List.find?_append, hnone]
    rw [List.find?_cons_of_pos _ (by simp)]
    simp

theorem find?_objMap_other (fs : List (String × Val)) (k k' : String) (v : Val)
    (h : ¬ k = k') :
    (fs.map (fun f => if f.1 = k then (k, v) else f)).find? (fun f => f.1 = k')
      = fs.find? (fun f => f.1 = k') := by
  induction fs with
  | nil => simp
  | cons f fs ih =>
    by_cases hk : f.1 = k
    · simp only [List.map_cons, if_pos hk]
      rw [List.find?_cons_of_neg _ (by simp [h]),
        List.find?_cons_of_neg _ (by simp [hk, h]), ih]
    · simp only [List.map_cons, if_neg hk]
      by_cases hk' : f.1 = k'
      · rw [List.find?_cons_of_pos _ (by simp [hk']),
          List.find?_cons_of_pos _ (by simp [hk'])]
      · rw [List.find?_cons_of_neg _ (by simp [hk']),
          List.find?_cons_of_neg _ (by simp [hk']), ih]

theorem objGet_objSet_other (fs : List (String × Val)) (k k' : String) (v : Val)
    (h : k' ≠ k) : objGet (objSet fs k v) k' = objGet fs k' := by
  have hne : ¬ (k = k') := fun e => h e.symm
  unfold objSet
  by_cases hhas : objHas fs k
  · simp only [hhas, if_true, objGet, find?_objMap_other fs k k' v hne]
  · simp only [Bool.not_eq_true] at hhas
    rcases hfind : fs.find? (fun f => f.1 = k') with _ | f0
    · simp only [hhas, Bool.false_eq_true, if_false, objGet, List.find?_append, hfind]
      rw [List.find?_cons_of_neg _ (by simp [hne])]
      simp
    · simp only [hhas, Bool.false_eq_true, if_false, objGet, List.find?_append, hfind]
      simp

theorem arrSet_getElem? (xs : List Val) (i : Nat) (v : Val) :
    (arrSet xs i v)[i]? = some v := by
  unfold arrSet
  by_cases hlt : i < xs.length
  · simp [hlt, List.getElem?_set_self hlt]
  · simp only [hlt, if_false]
    rw [List.getElem?_append_right (by simp; omega)]
    have hlen : (xs ++ List.replicate (i - xs.length) Val.vundef).length = i := by
      simp; omega
    rw [hlen]
    simp

theorem arrSet_getD (xs : List Val) (i : Nat) (v : Val) :
    (arrSet xs i v).getD i .vundef = v := by
  simp [List.getD_eq_getElem?_getD, arrSet_getElem?]

theorem getProp_assignProp (c : Val) (k : String) (v r : Val)
    (h : assignProp c k v = .ok r) : getProp r k = v := by
  cases c with
  | vobj fs =>
    simp only [assignProp, Except.ok.injEq] at h
    subst h
    simp [getProp, objGet_objSet_self]
  | varr xs =>
    simp only [assignProp] at h
    by_cases hlen : k = "length"
    · simp [hlen] at h
    · simp only [hlen, if_false] at h
      rcases hidx : canonIndex k with _ | i
      · simp [hidx] at h
      · simp only [hidx, Except.ok.injEq] at h
        subst h
        simp [getProp, hlen, hidx, arrSet_getD, arrSet_getElem?]
  | vundef => simp [assignProp] at h
  | vnull => simp [assignProp] at h
  | vbool b => simp [assignProp] at h
  | vnum q => simp [assignProp] at h
  | vnan => simp [assignProp] at h
  | vstr s => simp [assignProp] at h

theorem assignProp_container (c : Val) (k : String) (v r : Val)
    (h : assignProp c k v = .ok r) :
    (∃ fs, r = .vobj fs) ∨ (∃ xs, r = .varr xs) := by
  cases c with
  | vobj fs =>
    simp only [assignProp, Except.ok.injEq] at h
    exact .inl ⟨_, h.symm⟩
  | varr xs =>
    simp only [assignProp] at h
    by_cases hlen : k = "length"
    · simp [hlen] at h
    · simp only [hlen, if_false] at h
      rcases hidx : canonIndex k with _ | i
      · simp [hidx] at h
      · simp only [hidx, Except.ok.injEq] at h
        exact .inr ⟨_, h.symm⟩
  | vundef => simp [assignProp] at h
  | vnull => simp [assignProp] at h
  | vbool b => simp [assignProp] at h
  | vnum q => simp [assignProp] at h
  | vnan => simp [assignProp] at h
  | vstr s => simp [assignProp] at h

theorem getNested_setNested (ks : List Val) (cur v r : Val)
    (h : setNested cur ks v = .ok r) : getNested r ks = v := by
  induction ks generalizing cur r with
  | nil => simp [setNested] at h
  | cons k ks ih =>
    cases ks with
    | nil =>
      simp only [setNested] at h
      have hg := getProp_assignProp _ _ _ _ h
      rcases assignProp_container _ _ _ _ h with ⟨fs, rfl⟩ | ⟨xs, rfl⟩ <;>
        simp [getNested, hg]
    | cons k2 rest =>
      simp only [setNested] at h
      cases hinner : setNested (childFor cur (jsToStr k) k2) (k2 :: rest) v with
      | error e => rw [hinner] at h; simp [Bind.bind, Except.bind] at h
      | ok child' =>
        rw [hinner] at h
        simp only [Bind.bind, Except.bind] at h
        have hg := getProp_assignProp _ _ _ _ h
        have hchild := ih _ _ hinner
        rcases assignProp_container _ _ _ _ h with ⟨fs, rfl⟩ | ⟨xs, rfl⟩ <;>
          simp [getNested, hg, hchild]

/-! ## Claim C5 — path parsing -/

/-- C5, counterexample.  The claim says each `^\d+$` token is coerced to an
integer segment and that parsing fails with `InvalidPath` exactly on an
empty segment list; `DeltaEngine.parsePath` actually keeps every token as a
string (`"2"` stays a string segment, never a number) and returns an empty
list without failing (`"."` parses to `ok []`), diverging from the
spec-modelled `specParse` at both inputs. -/
theorem claim_C5_counterexample :
    parsePath (.vstr "a.2") = .ok [.vstr "a", .vstr "2"] ∧
    specParse (.inl "a.2") = .ok [.key "a", .idx 2] ∧
    Except.map (List.map segToVal) (specParse (.inl "a.2")) ≠ parsePath (.vstr "a.2") ∧
    specParse (.inl ".") = .error "InvalidPath" ∧
    parsePath (.vstr ".") = .ok [] := by
  refine ⟨rfl, rfl, ?_, rfl, rfl⟩
  have e1 : Except.map (List.map segToVal) (specParse (.inl "a.2"))
      = .ok [Val.vstr "a", Val.vnum 2] := rfl
  have e2 : parsePath (.vstr "a.2") = .ok [Val.vstr "a", Val.vstr "2"] := rfl
  intro h
  rw [e1, e2] at h
  injection h with hl
  injection hl with h1 h2
  injection h2 with h3 h4
  injection h3

/-- C5 (amended): `DeltaEngine.parsePath` rewrites `[n]` to `.n` and splits
on `.`, but keeps **every** token as a (non-empty) string segment — there is
no integer coercion; `"a.b[2].c"` and `"a.b.2.c"` parse to the same segment
list; parsing an already-parsed segment list returns it unchanged; and an
empty resulting segment list is returned as `ok []`, never as an
`InvalidPath` failure (only a non-string, non-array path argument throws). -/
theorem claim_C5 :
    parsePath (.vstr "a.b[2].c") = parsePath (.vstr "a.b.2.c") ∧
    (∀ xs : List Val, parsePath (.varr xs) = .ok xs) ∧
    (∀ s : String, ∃ keys, parsePath (.vstr s) = .ok keys ∧
      ∀ k ∈ keys, ∃ t, k = Val.vstr t ∧ t ≠ "") := by
  refine ⟨rfl, fun xs => rfl, fun s => ⟨_, rfl, ?_⟩⟩
  intro k hk
  rcases List.mem_map.mp hk with ⟨t, ht, rfl⟩
  refine ⟨t, rfl, ?_⟩
  have hlen := (List.mem_filter.mp ht).2
  intro he
  subst he
  simp at hlen

/-! ## Claim C7 — validation of a missing `value` -/

/-- C7, counterexample.  The claim says an operation (other than Delete)
missing its `value` is rejected by validation with no mutation attempted; in
the source the missing-`value` check has an empty body, so a Set operation
with no value passes `validate` and `apply` performs the mutation, creating
the key with value `undefined`. -/
theorem claim_C7_counterexample :
    validate (some ⟨.vstr "set", .vstr "a", .vundef⟩) = (true, []) ∧
    apply (.vobj []) ⟨.vstr "set", .vstr "a", .vundef⟩ = .ok (.vobj [("a", .vundef)]) :=
  ⟨rfl, rfl⟩

/-- C7 (amended): `validate` never rejects a missing `value` for any
operation kind — its verdict is independent of the `value` field and holds
exactly when the kind is truthy and recognised and the path is truthy; a
non-Delete operation without a value is therefore accepted and its mutation
attempted (executed concretely in the counterexample). -/
theorem claim_C7 :
    (∀ (o : Operation) (v v' : Val),
      (validate (some { o with value := v })).1
        = (validate (some { o with value := v' })).1) ∧
    (∀ o : Operation, (validate (some o)).1 = true ↔
      (truthy o.op = true ∧ opKindKnown o.op = true ∧ truthy o.path = true)) := by
  constructor
  · intro o v v'
    rfl
  · intro o
    rcases htop : truthy o.op <;> rcases hk : opKindKnown o.op <;>
      rcases hp : truthy o.path <;>
      simp [validate, validateErrors, htop, hk, hp]

/-! ## Claim C2 — Increment coercion -/

/-- C2, counterexample.  The claim says `Increment(path, "abc")` changes
nothing in the document; on a document where the path is absent the source
computes increment `0` and *writes* `0 + 0` through `setNestedValue`,
materialising the path: the empty document becomes `{a: 0}`. -/
theorem claim_C2_counterexample :
    applyIncrement (.vobj []) (.vstr "a") (.vstr "abc") = .ok (.vobj [("a", .vnum 0)]) ∧
    Val.vobj [("a", Val.vnum 0)] ≠ Val.vobj [] := by
  constructor
  · have h : applyIncrement (.vobj []) (.vstr "a") (.vstr "abc")
        = .ok (.vobj [("a", .vnum ((0 : Rat) + 0))]) := rfl
    rwa [show ((0 : Rat) + 0) = 0 by norm_num] at h
  · intro h
    injection h with hfs
    injection hfs

/-- C2 (amended): `Increment ".5"` on an absent path leaves `0.5` at the
path and `Increment "-10"` on current value `7` leaves `-3`, exactly as
claimed; `Increment "abc"` never throws on account of the unparsable value —
it behaves exactly like `Increment 0`, which leaves numeric values unchanged
but materialises an absent path as `0` (see the counterexample), so "changes
nothing" fails only in that case. -/
theorem claim_C2 :
    (∀ (doc : Val) (p : String) (keys : List Val) (res : Val),
      parsePath (.vstr p) = .ok keys →
      getNested doc keys = .vundef →
      applyIncrement doc (.vstr p) (.vstr ".5") = .ok res →
      getNested res keys = .vnum (1/2)) ∧
    (∀ (doc : Val) (p : String) (keys : List Val) (res : Val),
      parsePath (.vstr p) = .ok keys →
      getNested doc keys = .vnum 7 →
      applyIncrement doc (.vstr p) (.vstr "-10") = .ok res →
      getNested res keys = .vnum (-3)) ∧
    (∀ doc path : Val,
      applyIncrement doc path (.vstr "abc") = applyIncrement doc path (.vnum 0)) := by
  refine ⟨?_, ?_, fun doc path => rfl⟩
  · intro doc p keys res hpp hget happ
    unfold applyIncrement at happ
    have hgv : getNestedValue doc (.vstr p) = .ok (getNested doc keys) := by
      simp [getNestedValue, hpp, Bind.bind, Except.bind, Pure.pure, Except.pure]
    rw [hgv] at happ
    simp only [Bind.bind, Except.bind, hget] at happ
    rw [show incrementAmount (.vstr ".5") = some (decimalValue false 0 5 1 0) from rfl]
      at happ
    simp only [setNestedValue, hpp, Bind.bind, Except.bind] at happ
    have := getNested_setNested keys doc _ res happ
    rwa [show ((0 : Rat) + decimalValue false 0 5 1 0) = 1/2 by
      norm_num [decimalValue]] at this
  · intro doc p keys res hpp hget happ
    unfold applyIncrement at happ
    have hgv : getNestedValue doc (.vstr p) = .ok (getNested doc keys) := by
      simp [getNestedValue, hpp, Bind.bind, Except.bind, Pure.pure, Except.pure]
    rw [hgv] at happ
    simp only [Bind.bind, Except.bind, hget] at happ
    rw [show incrementAmount (.vstr "-10") = some (decimalValue true 10 0 0 0) from rfl]
      at happ
    simp only [setNestedValue, hpp, Bind.bind, Except.bind] at happ
    have := getNested_setNested keys doc _ res happ
    rwa [show ((7 : Rat) + decimalValue true 10 0 0 0) = -3 by
      norm_num [decimalValue]] at this

/-! ## Claim C3 — batch isolation -/

/-- A validation failure makes `apply` throw before any mutation. -/
theorem apply_of_invalid (d : Val) (o : Operation)
    (h : (validate (some o)).1 = false) :
    apply d o = .error ("Invalid operation: "
      ++ String.intercalate ", " (validateErrors o)) := by
  simp only [validate] at h
  simp [apply, validate, h]

/-- C3: for a batch `[validOp, invalidOp, validOp2]` whose middle operation
fails validation (missing kind, missing path or unrecognised kind) and whose
outer operations apply successfully, `applyBatch` applies both valid
operations in order, rejects the invalid one with a per-operation failure
(leaving the document as the first operation left it — `apply` throws at
validation, before any mutation), does not abort, and returns one result per
operation in the original order with exactly one failure. -/
theorem claim_C3 (doc doc1 doc2 : Val) (op1 opBad op3 : Operation)
    (h1 : apply doc op1 = .ok doc1)
    (hbad : (validate (some opBad)).1 = false)
    (h3 : apply doc1 op3 = .ok doc2) :
    applyBatch doc [op1, opBad, op3] =
      (doc2, [⟨true, none⟩,
        ⟨false, some ("Invalid operation: "
          ++ String.intercalate ", " (validateErrors opBad))⟩,
        ⟨true, none⟩]) := by
  have hb := apply_of_invalid doc1 opBad hbad
  simp [applyBatch, h1, hb, h3]

/-- C3, witness: a concrete batch with a kind-less middle operation. -/
theorem claim_C3_witness :
    apply (.vobj []) ⟨.vstr "set", .vstr "a", .vnum 1⟩
        = .ok (.vobj [("a", .vnum 1)]) ∧
    (validate (some ⟨.vundef, .vstr "x", .vnum 1⟩)).1 = false ∧
    apply (.vobj [("a", .vnum 1)]) ⟨.vstr "set", .vstr "b", .vnum 2⟩
        = .ok (.vobj [("a", .vnum 1), ("b", .vnum 2)]) ∧
    applyBatch (.vobj []) [⟨.vstr "set", .vstr "a", .vnum 1⟩,
        ⟨.vundef, .vstr "x", .vnum 1⟩, ⟨.vstr "set", .vstr "b", .vnum 2⟩] =
      (.vobj [("a", .vnum 1), ("b", .vnum 2)], [⟨true, none⟩,
        ⟨false, some ("Invalid operation: " ++ String.intercalate ", "
          (validateErrors ⟨.vundef, .vstr "x", .vnum 1⟩))⟩,
        ⟨true, none⟩]) :=
  ⟨rfl, rfl, rfl, claim_C3 _ _ _ _ _ _ rfl rfl rfl⟩

/-! ## Claim C10 — Remove with a `null` value -/

/-- Scanning an array with the `Remove`-by-`null` matcher: the first
object-typed element makes `Object.entries(null)` throw; with no
object-typed element the scan completes without a match. -/
theorem findIndexE_removeMatch_null (xs : List Val) (i : Nat) :
    findIndexE (removeMatch .vnull) xs i =
      (if xs.any (fun x => jsTypeof x = "object")
       then .error "TypeError: Cannot convert undefined or null to object"
       else .ok none) := by
  induction xs generalizing i with
  | nil => simp [findIndexE, Pure.pure, Except.pure]
  | cons x xs ih =>
    by_cases hx : jsTypeof x = "object"
    · simp [findIndexE, removeMatch, hx, Bind.bind, Except.bind]
    · simp only [findIndexE, removeMatch, hx]
      simp only [ne_eq, hx, not_false_iff, if_true, Bind.bind, Except.bind,
        Pure.pure, Except.pure, List.any_cons, decide_eq_true_eq, hx, false_or]
      exact ih (i + 1)

/-- C10, counterexample.  The claim says `Remove` with value `null` on a
path holding *a* non-empty array throws; on the non-empty array `[1]`
(no object-typed element) the scan callback returns `false` for every
element and `apply` succeeds with the document unchanged. -/
theorem claim_C10_counterexample :
    apply (.vobj [("list", .varr [.vnum 1])])
        ⟨.vstr "remove", .vstr "list", .vnull⟩
      = .ok (.vobj [("list", .varr [.vnum 1])]) := rfl

/-- C10 (amended): applying `Remove` with value `null` to a path holding an
array throws a `TypeError` (out of `applyRemove` and out of a direct
`apply`, which `applyBatch` catches as a per-operation failure) **exactly
when** the array contains at least one element of JS `object` type (an
object, an array or `null`); otherwise it is a successful no-op.  The
`TypeError` comes from `Object.entries(null)` in the object-matching branch,
which `value = null` enters because `typeof null === 'object'`. -/
theorem claim_C10 (doc : Val) (p : String) (keys xs : List Val)
    (hp : p ≠ "")
    (hpp : parsePath (.vstr p) = .ok keys)
    (hget : getNested doc keys = .varr xs) :
    (applyRemove doc (.vstr p) .vnull =
      (if xs.any (fun x => jsTypeof x = "object")
       then .error "TypeError: Cannot convert undefined or null to object"
       else .ok doc)) ∧
    apply doc ⟨.vstr "remove", .vstr p, .vnull⟩ = applyRemove doc (.vstr p) .vnull ∧
    applyBatch doc [⟨.vstr "remove", .vstr p, .vnull⟩] =
      (doc, [if xs.any (fun x => jsTypeof x = "object")
             then ⟨false, some "TypeError: Cannot convert undefined or null to object"⟩
             else ⟨true, none⟩]) := by
  have hgv : getNestedValue doc (.vstr p) = .ok (getNested doc keys) := by
    simp [getNestedValue, hpp, Bind.bind, Except.bind, Pure.pure, Except.pure]
  have hrem : applyRemove doc (.vstr p) .vnull =
      (if xs.any (fun x => jsTypeof x = "object")
       then .error "TypeError: Cannot convert undefined or null to object"
       else .ok doc) := by
    unfold applyRemove
    rw [hgv]
    simp only [Bind.bind, Except.bind, hget]
    rw [if_neg (by simp [jsTypeof]), if_pos (by simp [jsTypeof] : jsTypeof Val.vnull = "object"),
      findIndexE_removeMatch_null]
    by_cases hany : xs.any (fun x => jsTypeof x = "object")
    · simp [hany]
    · simp [hany, Pure.pure, Except.pure]
  have happly : apply doc ⟨.vstr "remove", .vstr p, .vnull⟩
      = applyRemove doc (.vstr p) .vnull := by
    unfold apply
    have hval : validate (some ⟨.vstr "remove", .vstr p, .vnull⟩) = (true, []) := by
      simp [validate, validateErrors, truthy, opKindKnown, OPERATION_TYPES, hp]
    rw [hval]
    simp only [if_true, Bind.bind, Except.bind, hgv]
  refine ⟨hrem, happly, ?_⟩
  by_cases hany : xs.any (fun x => jsTypeof x = "object")
  · simp only [hany, if_true] at hrem ⊢
    simp [applyBatch, happly, hrem]
  · simp only [Bool.not_eq_true] at hany
    simp only [hany, Bool.false_eq_true, if_false] at hrem ⊢
    simp [applyBatch, happly, hrem]

/-- C10, witness: on `{list: [1, {}]}` the object element makes the removal
throw; `applyBatch` records it as the single failure. -/
theorem claim_C10_witness :
    ("list" : String) ≠ "" ∧
    parsePath (.vstr "list") = .ok [.vstr "list"] ∧
    getNested (.vobj [("list", .varr [.vnum 1, .vobj []])]) [.vstr "list"]
      = .varr [.vnum 1, .vobj []] ∧
    applyRemove (.vobj [("list", .varr [.vnum 1, .vobj []])]) (.vstr "list") .vnull
      = .error "TypeError: Cannot convert undefined or null to object" := by
  refine ⟨by decide, rfl, rfl, ?_⟩
  have h := (claim_C10 (.vobj [("list", .varr [.vnum 1, .vobj []])]) "list"
    [.vstr "list"] [.vnum 1, .vobj []] (by decide) rfl rfl).1
  simpa using h

/-! ## Claim C9 — dropping of valueless operations during remapping -/

/-- When the target classification and path are not the `major` /
`data.lastContext` pair, `remapOne` leaves the operation's value untouched. -/
theorem remapOne_value (now : String) (cls : Val) (o o' : Operation)
    (hnot : ¬ (strictEq cls (.vstr "major") = true
      ∧ strictEq o.path (.vstr "data.lastContext") = true))
    (h : remapOne now cls o = .ok o') : o'.value = o.value := by
  unfold remapOne at h
  by_cases hmin : strictEq cls (.vstr "minor")
  · simp only [hmin, if_true] at h
    rcases hp : o.path with _ | _ | b | q | _ | s | xs | fs <;> rw [hp] at h
    · simp at h
    · simp at h
    · simp at h
    · simp at h
    · simp at h
    · simp only [Pure.pure, Except.pure] at h
      split_ifs at h <;>
        · simp only [Except.ok.injEq] at h
          subst h
          rfl
    · simp at h
    · simp at h
  · simp only [hmin, Bool.false_eq_true, if_false] at h
    by_cases hmaj : strictEq cls (.vstr "major")
    · simp only [hmaj, if_true] at h
      have hnp : strictEq o.path (.vstr "data.lastContext") = false := by
        rcases hsp : strictEq o.path (.vstr "data.lastContext") with _ | _
        · rfl
        · exact absurd ⟨hmaj, hsp⟩ hnot
      split at h
      · simp only [Pure.pure, Except.pure, Except.ok.injEq] at h
        subst h; rfl
      · split at h
        · simp only [Pure.pure, Except.pure, Except.ok.injEq] at h
          subst h; rfl
        · rw [hnp] at h
          simp only [Bool.false_eq_true, if_false, Pure.pure, Except.pure,
            Except.ok.injEq] at h
          subst h; rfl
    · simp only [hmaj, Bool.false_eq_true, if_false, Pure.pure, Except.pure,
        Except.ok.injEq] at h
      subst h; rfl

/-- C9, counterexample.  The claim says a valueless Delete routed through
remapping is *always* dropped; a Delete at `data.lastContext` remapped for a
`major` classification has its value replaced by the `{event, timestamp}`
wrapper — which is not `undefined` — and so survives the filter as an append
to `timeline`. -/
theorem claim_C9_counterexample :
    remapOperationsForClassification "N"
        [⟨.vstr "delete", .vstr "data.lastContext", .vundef⟩] (.vstr "major")
      = .ok [⟨.vstr "append", .vstr "timeline",
          .vobj [("event", .vundef), ("timestamp", .vstr "N")]⟩] := rfl

/-- C9 (amended): the remapping filter drops every operation whose value is
`undefined` **after** remapping — so no surviving operation carries an
`undefined` value, and a valueless operation (such as a Delete) is dropped
in every case **except** when the classification is `major` and the path is
exactly `data.lastContext`, where remapping installs an `{event, timestamp}`
object value and the operation survives as an append to `timeline` (see the
counterexample). -/
theorem claim_C9 :
    (∀ (now : String) (cls : Val) (ops out : List Operation),
      remapOperationsForClassification now ops cls = .ok out →
      ∀ o ∈ out, strictEq o.value .vundef = false) ∧
    (∀ (now : String) (cls : Val) (o o' : Operation),
      strictEq o.value .vundef = true →
      ¬ (strictEq cls (.vstr "major") = true
        ∧ strictEq o.path (.vstr "data.lastContext") = true) →
      remapOne now cls o = .ok o' →
      remapOperationsForClassification now [o] cls = .ok []) := by
  constructor
  · intro now cls ops out h o ho
    unfold remapOperationsForClassification at h
    cases hm : ops.mapM (remapOne now cls) with
    | error e => rw [hm] at h; simp [Bind.bind, Except.bind] at h
    | ok mapped =>
      rw [hm] at h
      simp only [Bind.bind, Except.bind, Pure.pure, Except.pure,
        Except.ok.injEq] at h
      subst h
      have := List.mem_filter.mp ho
      have hpred := this.2
      simp only [decide_eq_true_eq] at hpred
      exact hpred.2
  · intro now cls o o' hval hnot hro
    have hv := remapOne_value now cls o o' hnot hro
    unfold remapOperationsForClassification
    rw [show ([o].mapM (remapOne now cls)) = .ok [o'] by
      simp [List.mapM, List.mapM.loop, hro, Bind.bind, Except.bind,
        Pure.pure, Except.pure]]
    simp only [Bind.bind, Except.bind, Pure.pure, Except.pure]
    congr 1
    rw [List.filter_cons]
    rw [show (decide (truthy o'.path = true ∧ strictEq o'.value .vundef = false)) = false by
      simp [hv, hval]]
    rfl

/-- C9, witness: a valueless Delete at `data.notes` under a `minor`
classification is remapped unchanged and then dropped by the filter. -/
theorem claim_C9_witness :
    strictEq (Val.vundef) .vundef = true ∧
    remapOne "N" (.vstr "minor") ⟨.vstr "delete", .vstr "data.notes", .vundef⟩
      = .ok ⟨.vstr "delete", .vstr "data.notes", .vundef⟩ ∧
    remapOperationsForClassification "N"
        [⟨.vstr "delete", .vstr "data.notes", .vundef⟩] (.vstr "minor") = .ok [] :=
  ⟨rfl, rfl, claim_C9.2 "N" (.vstr "minor")
    ⟨.vstr "delete", .vstr "data.notes", .vundef⟩
    ⟨.vstr "delete", .vstr "data.notes", .vundef⟩ rfl (by simp [strictEq]) rfl⟩

/-- C5, witness: a concrete string path produces non-empty string segments. -/
theorem claim_C5_witness :
    ∃ keys, parsePath (.vstr "x.y") = .ok keys ∧
      ∀ k ∈ keys, ∃ t, k = Val.vstr t ∧ t ≠ "" :=
  claim_C5.2.2 "x.y"

/-- C7, witness: the validation verdict at a concrete Set operation is the
same with a missing value and with a numeric value. -/
theorem claim_C7_witness :
    (validate (some ⟨.vstr "set", .vstr "a", .vundef⟩)).1
      = (validate (some ⟨.vstr "set", .vstr "a", .vnum 5⟩)).1 :=
  claim_C7.1 ⟨.vstr "set", .vstr "a", .vundef⟩ .vundef (.vnum 5)

/-- C2, witness: concrete runs of the two proved Increment scenarios. -/
theorem claim_C2_witness :
    (∃ res, applyIncrement (.vobj []) (.vstr "a") (.vstr ".5") = .ok res ∧
      getNested res [.vstr "a"] = .vnum (1/2)) ∧
    (∃ res, applyIncrement (.vobj [("n", .vnum 7)]) (.vstr "n") (.vstr "-10")
        = .ok res ∧ getNested res [.vstr "n"] = .vnum (-3)) :=
  ⟨⟨_, rfl, claim_C2.1 (.vobj []) "a" [.vstr "a"] _ rfl rfl rfl⟩,
   ⟨_, rfl, claim_C2.2.1 (.vobj [("n", .vnum 7)]) "n" [.vstr "n"] _ rfl rfl rfl⟩⟩

/-! ## Claim C4 — pin immunity -/

/-- A truthy value is not strictly equal to `undefined`. -/
theorem strictEq_vundef_of_truthy (v : Val) (h : truthy v = true) :
    strictEq v .vundef = false := by
  cases v <;> first | rfl | (simp [truthy] at h)

/-- C4, counterexample.  The claim says an automatic classification-change
request on a pinned entity returns `null`; `setClassification` on a pinned
minor entity asked to become major actually returns the stored record itself
(`Sum.inl`), not `null` (`none`). -/
theorem claim_C4_counterexample :
    setClassification regPinned "npc_bob" "major" "auto" = some (.inl bobPinned) ∧
    setClassification regPinned "npc_bob" "major" "auto" ≠ none := by
  constructor
  · rfl
  · rw [show setClassification regPinned "npc_bob" "major" "auto"
      = some (.inl bobPinned) from rfl]
    exact Option.some_ne_none _

/-- C4 (amended): for a pinned entity, an automatic `setClassification`
request toward the opposite tier returns the stored record unchanged (a
`Sum.inl` no-op result, **not** `null`) and performs no registry mutation
(the method writes nothing on any path), while a manual `promoteNPC` call on
the same pinned entity ignores the pin, migrates the record to major and
replaces it in the registry. -/
theorem claim_C4 (reg : Registry) (id reason reason2 now : String) (rec M : Val)
    (hstore : objGet reg.npcs id = rec)
    (htr : truthy rec = true)
    (hcls : getProp (getProp rec "meta") "classification" = .vstr "minor")
    (hpin : truthy (getProp (getProp rec "meta") "userPinned") = true)
    (hmig : migrateToMajor now rec reason2 = .ok M) :
    setClassification reg id "major" reason = some (.inl rec) ∧
    promoteNPC now reg id reason2 =
      ({ reg with npcs := objSet reg.npcs id M }, some M) := by
  have hne := strictEq_vundef_of_truthy rec htr
  have h1 : hasNPC reg id = true := by
    unfold hasNPC
    rw [hstore, hne]
    rfl
  have hnpc : getNPC reg id = rec := by
    unfold getNPC truthyOr
    rw [hstore, htr]
    rfl
  constructor
  · unfold setClassification
    rw [h1, if_pos rfl, hnpc]
    simp only [hcls, hpin,
      show strictEq (Val.vstr "minor") (.vstr "major") = false from rfl,
      Bool.false_eq_true, if_false, if_true]
  · unfold promoteNPC
    rw [hnpc]
    simp only [htr, hcls, hmig,
      show strictEq (Val.vstr "minor") (.vstr "major") = false from rfl,
      Bool.true_eq_false, Bool.false_eq_true, if_false]
    rfl

/-- C4, witness: the pinned fixture `bobPinned` — the automatic request
returns the record itself while the manual promotion replaces it. -/
theorem claim_C4_witness :
    ∃ M, migrateToMajor "T1" bobPinned "manual" = .ok M ∧
      setClassification regPinned "npc_bob" "major" "auto" = some (.inl bobPinned) ∧
      promoteNPC "T1" regPinned "npc_bob" "manual" =
        ({ regPinned with npcs := objSet regPinned.npcs "npc_bob" M }, some M) := by
  have h := claim_C4 regPinned "npc_bob" "auto" "manual" "T1" bobPinned _
    rfl rfl rfl rfl rfl
  exact ⟨_, rfl, h.1, h.2⟩

/-! ## Claim C6 — migration round trip -/

/-- `getSentimentTrustLevel` never throws on a string sentiment. -/
theorem getSentimentTrustLevel_ok (s : String) :
    ∃ t, getSentimentTrustLevel (.vstr s) = .ok t := by
  unfold getSentimentTrustLevel
  simp only [Pure.pure, Except.pure]
  split_ifs <;> exact ⟨_, rfl⟩

/-- C6, counterexample.  The claim quantifies over every Minor record; for a
record whose `sentiment` is the empty string (the schema default), promotion
records no `relationships.mainCharacter` and demotion falls back to
`'Neutral'`, so the round trip does not preserve the sentiment. -/
theorem claim_C6_counterexample :
    (∃ M m, migrateToMajor "T1" bobPlain "r" = .ok M ∧
      migrateToMinor "T2" M "r2" = .ok m ∧
      getProp (getProp m "data") "sentiment" = .vstr "Neutral") ∧
    getProp (getProp bobPlain "data") "sentiment" = .vstr "" ∧
    Val.vstr "Neutral" ≠ Val.vstr "" := by
  refine ⟨⟨_, _, rfl, rfl, rfl⟩, rfl, by simp⟩

/-- C6 (amended): for every schema-shaped Minor record with a **non-empty**
`sentiment`, promoting (`migrateToMajor`) and then immediately demoting
(`migrateToMinor`) produces a Minor record whose `sentiment` equals the
original; the empty sentiment instead round-trips to `'Neutral'` (see the
counterexample). -/
theorem claim_C6 (npcId name fa ls : String) (count : Rat) (pin : Bool)
    (ca lu notes sentiment ctx : String) (now now2 r r2 : String) (M m : Val)
    (hs : sentiment ≠ "")
    (hM : migrateToMajor now
      (mkMinorNPC npcId name fa ls count pin ca lu notes sentiment ctx) r = .ok M)
    (hm : migrateToMinor now2 M r2 = .ok m) :
    getProp (getProp m "meta") "classification" = .vstr "minor" ∧
    getProp (getProp m "data") "sentiment" = .vstr sentiment := by
  obtain ⟨t, ht⟩ := getSentimentTrustLevel_ok sentiment
  have ht' : getSentimentTrustLevel (getProp (getProp
      (mkMinorNPC npcId name fa ls count pin ca lu notes sentiment ctx) "data")
      "sentiment") = .ok t := ht
  simp [migrateToMajor, mkMinorNPC, getProp, objGet, truthy, truthyOr, ht', ht, hs,
    Bind.bind, Except.bind, Pure.pure, Except.pure, Except.ok.injEq] at hM
  subst hM
  simp [migrateToMinor, getProp, objGet, truthy, truthyOr, jsLenPos, objectValues,
    jsToStr, jsJoin, hs, Bind.bind, Except.bind, Pure.pure, Except.pure,
    Except.ok.injEq] at hm
  subst hm
  constructor
  · rfl
  · simp [getProp, objGet, truthy, truthyOr, hs]

/-- C6, witness: a concrete minor record with sentiment `"Warm"`
round-trips. -/
theorem claim_C6_witness :
    ("Warm" : String) ≠ "" ∧
    (∃ M m, migrateToMajor "T1"
        (mkMinorNPC "npc_bob" "Bob" "T0" "T0" 1 false "T0" "T0" "n" "Warm" "c") "r"
        = .ok M ∧
      migrateToMinor "T2" M "r2" = .ok m ∧
      getProp (getProp m "meta") "classification" = .vstr "minor" ∧
      getProp (getProp m "data") "sentiment" = .vstr "Warm") := by
  refine ⟨by decide, _, _, rfl, rfl, ?_⟩
  exact claim_C6 "npc_bob" "Bob" "T0" "T0" 1 false "T0" "T0" "n" "Warm" "c"
    "T1" "T2" "r" "r2" _ _ (by decide) rfl rfl

/-! ## Claim C8 — scene list bound -/

theorem npcTouch_eq (now : String) (fs mfs : List (String × Val))
    (hmeta : objGet fs "meta" = .vobj mfs) :
    npcTouch now (.vobj fs) = .ok (npcTouched now fs mfs) := by
  unfold npcTouch npcTouched
  simp only [getProp, hmeta, assignProp, Bind.bind, Except.bind]

theorem wfNpc_npcTouched (now : String) (fs mfs : List (String × Val)) :
    wfNpc (npcTouched now fs mfs) := by
  unfold npcTouched wfNpc
  exact ⟨_, _, rfl, objGet_objSet_self _ _ _⟩

theorem markAsMentioned_eq (now : String) (reg : Registry) (id : String)
    (fs mfs : List (String × Val))
    (hfs : objGet reg.npcs id = .vobj fs)
    (hmeta : objGet fs "meta" = .vobj mfs) :
    markAsMentioned now reg id = .ok
      (⟨objSet reg.npcs id (npcTouched now fs mfs),
        stepMentioned reg.recentlyMentioned id⟩, true) := by
  have h1 : hasNPC reg id = true := by
    unfold hasNPC
    rw [hfs]
    rfl
  have hnpc : getNPC reg id = .vobj fs := by
    unfold getNPC truthyOr
    rw [hfs]
    rfl
  unfold markAsMentioned
  rw [h1, if_pos rfl, hnpc]
  simp [truthy, npcTouch_eq now fs mfs hmeta, Bind.bind, Except.bind,
    Pure.pure, Except.pure, stepMentioned]

theorem foldMentions_ok (now : String) (ids : List String) :
    ∀ reg : Registry, (∀ id ∈ ids, wfNpc (objGet reg.npcs id)) →
    ∃ regF, foldMentions now reg ids = .ok regF ∧
      regF.recentlyMentioned = ids.foldl stepMentioned reg.recentlyMentioned := by
  induction ids with
  | nil => exact fun reg _ => ⟨reg, rfl, rfl⟩
  | cons a ids ih =>
    intro reg h
    obtain ⟨fs, mfs, hfs, hmeta⟩ := h a (List.mem_cons_self a ids)
    have hm := markAsMentioned_eq now reg a fs mfs hfs hmeta
    set reg1 : Registry := ⟨objSet reg.npcs a (npcTouched now fs mfs),
      stepMentioned reg.recentlyMentioned a⟩ with hreg1
    obtain ⟨regF, hfold, hlist⟩ := ih reg1 (by
      intro id hid
      by_cases hia : id = a
      · subst hia
        show wfNpc (objGet (objSet reg.npcs id (npcTouched now fs mfs)) id)
        rw [objGet_objSet_self]
        exact wfNpc_npcTouched now fs mfs
      · show wfNpc (objGet (objSet reg.npcs a (npcTouched now fs mfs)) id)
        rw [objGet_objSet_other _ _ _ _ hia]
        exact h id (List.mem_cons_of_mem a hid))
    refine ⟨regF, ?_, ?_⟩
    · unfold foldMentions
      rw [hm]
      simpa [Bind.bind, Except.bind] using hfold
    · rw [hlist, List.foldl_cons]

theorem take_erase_take (X : List String) (a : String) :
    ∀ n : Nat, ((X.take n).erase a).take (n - 1) = (X.erase a).take (n - 1) := by
  induction X with
  | nil => intro n; simp
  | cons x xs ih =>
    intro n
    cases n with
    | zero => simp
    | succ k =>
      rw [List.take_succ_cons, List.erase_cons, List.erase_cons]
      by_cases hx : (x == a) = true
      · simp only [hx, if_true, Nat.add_sub_cancel, List.take_take]
        simp
      · simp only [hx, Bool.false_eq_true, if_false, Nat.add_sub_cancel]
        cases k with
        | zero => simp
        | succ j =>
          rw [List.take_succ_cons, List.take_succ_cons]
          have := ih (j + 1)
          simp only [Nat.add_sub_cancel] at this
          rw [this]

theorem foldl_stepMentioned (L : List String) :
    L.Nodup → L ≠ [] → ∀ l0, L.foldl stepMentioned l0 =
      (L.reverse ++ L.foldl (fun l a => l.erase a) l0).take 10 := by
  induction L using List.reverseRecOn with
  | nil => exact fun _ hne => absurd rfl hne
  | append_singleton L a ih =>
    intro hnd _ l0
    have hna : a ∉ L := by
      intro hmem
      have h2 := List.nodup_append.mp hnd
      exact h2.2.2 hmem (List.mem_singleton_self a)
    have hL : L.Nodup := (List.nodup_append.mp hnd).1
    by_cases hL0 : L = []
    · subst hL0
      simp [stepMentioned]
    · rw [List.foldl_append, List.foldl_append, ih hL hL0 l0]
      show stepMentioned _ a = _
      unfold stepMentioned
      rw [show ((a :: ((L.reverse ++ L.foldl (fun l a => l.erase a) l0).take 10).erase a).take 10)
          = a :: (((L.reverse ++ L.foldl (fun l a => l.erase a) l0).take 10).erase a).take 9
        from List.take_succ_cons]
      rw [show (((L.reverse ++ L.foldl (fun l a => l.erase a) l0).take 10).erase a).take 9
          = ((L.reverse ++ L.foldl (fun l a => l.erase a) l0).erase a).take 9 from by
        have := take_erase_take (L.reverse ++ L.foldl (fun l a => l.erase a) l0) a 10
        simpa using this]
      rw [List.erase_append_right _ (by simpa using hna)]
      rw [List.reverse_append]
      simp only [List.reverse_singleton, List.singleton_append, List.foldl_cons,
        List.foldl_nil, List.cons_append, List.nil_append]
      rw [List.take_succ_cons]

/-- C8: `markAsMentioned` moves the id to the front of `recentlyMentioned`,
removing its earlier occurrence, caps the list at 10, and refreshes the
entity's `lastSeen` and `appearanceCount`; consequently 15 sequential calls
with distinct tracked ids leave exactly 10 entries — the reversed last ten
ids — with the most recent id at index 0 and no duplicates. -/
theorem claim_C8 :
    (∀ (now : String) (reg : Registry) (id : String)
      (fs mfs : List (String × Val)) (q : Rat),
      objGet reg.npcs id = .vobj fs →
      objGet fs "meta" = .vobj mfs →
      objGet mfs "appearanceCount" = .vnum q →
      ∃ rec, markAsMentioned now reg id = .ok
          (⟨objSet reg.npcs id rec,
            (id :: reg.recentlyMentioned.erase id).take 10⟩, true) ∧
        getProp (getProp rec "meta") "lastSeen" = .vstr now ∧
        getProp (getProp rec "meta") "appearanceCount" = .vnum (q + 1)) ∧
    (∀ (now : String) (reg : Registry) (ids : List String),
      ids.length = 15 → ids.Nodup →
      (∀ id ∈ ids, wfNpc (objGet reg.npcs id)) →
      ∃ regF, foldMentions now reg ids = .ok regF ∧
        regF.recentlyMentioned = (ids.drop 5).reverse ∧
        regF.recentlyMentioned.length = 10 ∧
        regF.recentlyMentioned.head? = ids.getLast? ∧
        regF.recentlyMentioned.Nodup) := by
  constructor
  · intro now reg id fs mfs q hfs hmeta hcnt
    refine ⟨npcTouched now fs mfs, markAsMentioned_eq now reg id fs mfs hfs hmeta, ?_, ?_⟩
    · unfold npcTouched
      simp only [getProp, objGet_objSet_self]
      rw [objGet_objSet_other _ _ _ _ (by decide : ("lastSeen" : String) ≠ "appearanceCount"),
        objGet_objSet_self]
    · unfold npcTouched
      simp only [getProp, objGet_objSet_self]
      rw [objGet_objSet_other _ _ _ _
        (by decide : ("appearanceCount" : String) ≠ "lastSeen"), hcnt]
      rfl
  · intro now reg ids h15 hnd hwf
    obtain ⟨regF, hfold, hlist⟩ := foldMentions_ok now ids reg hwf
    rw [foldl_stepMentioned ids hnd (by intro h; rw [h] at h15; simp at h15)] at hlist
    rw [List.take_append_of_le_length (by simp [h15])] at hlist
    rw [List.take_reverse] at hlist
    rw [h15] at hlist
    have hdrop : (ids.drop 5).length = 10 := by simp [h15]
    have hne : ids.drop 5 ≠ [] := by
      intro h
      rw [h] at hdrop
      simp at hdrop
    refine ⟨regF, hfold, hlist, by rw [hlist]; simp [hdrop], ?_, ?_⟩
    · rw [hlist, List.head?_reverse]
      conv_rhs => rw [← List.take_append_drop 5 ids]
      rw [List.getLast?_append]
      rw [show (ids.drop 5).getLast? = some ((ids.drop 5).getLast hne) from
        List.getLast?_eq_getLast _ hne]
      rfl
    · rw [hlist]
      simp only [List.nodup_reverse]
      exact hnd.sublist (List.drop_sublist 5 ids)

/-- C8, witness: one concrete call on the plain fixture, and fifteen
sequential calls with the distinct ids of `ids15`. -/
theorem claim_C8_witness :
    (∃ fs mfs, objGet regPlain.npcs "npc_bob" = .vobj fs ∧
      objGet fs "meta" = .vobj mfs ∧
      objGet mfs "appearanceCount" = .vnum 1 ∧
      ∃ rec, markAsMentioned "T9" regPlain "npc_bob" = .ok
          (⟨objSet regPlain.npcs "npc_bob" rec,
            ("npc_bob" :: regPlain.recentlyMentioned.erase "npc_bob").take 10⟩, true) ∧
        getProp (getProp rec "meta") "lastSeen" = .vstr "T9" ∧
        getProp (getProp rec "meta") "appearanceCount" = .vnum (1 + 1)) ∧
    (ids15.length = 15 ∧ ids15.Nodup ∧
      ∃ regF, foldMentions "T9" reg15 ids15 = .ok regF ∧
        regF.recentlyMentioned = (ids15.drop 5).reverse ∧
        regF.recentlyMentioned.length = 10 ∧
        regF.recentlyMentioned.head? = ids15.getLast? ∧
        regF.recentlyMentioned.Nodup) := by
  have hwf : ∀ id ∈ ids15, wfNpc (objGet reg15.npcs id) := by
    intro id hid
    fin_cases hid <;> exact ⟨_, _, rfl, rfl⟩
  constructor
  · exact ⟨_, _, rfl, rfl, rfl,
      claim_C8.1 "T9" regPlain "npc_bob" _ _ 1 rfl rfl rfl⟩
  · exact ⟨by decide, by decide,
      claim_C8.2 "T9" reg15 ids15 (by decide) (by decide) hwf⟩

/-! ## Claim C1 — remapping order in the batch executor -/

theorem except_bind_ok {α β : Type} (x : Except String α) (f : α → Except String β)
    (b : β) (h : (x >>= f) = .ok b) : ∃ a, x = .ok a ∧ f a = .ok b := by
  cases x with
  | error e => simp [Bind.bind, Except.bind] at h
  | ok a => exact ⟨a, rfl, by simpa [Bind.bind, Except.bind] using h⟩

/-- A successful `migrateToMajor` result is a truthy object whose
`meta.classification` is `'major'`. -/
theorem migrateToMajor_major (now reason : String) (rec M : Val)
    (h : migrateToMajor now rec reason = .ok M) :
    truthy M = true ∧ getProp (getProp M "meta") "classification" = .vstr "major" := by
  unfold migrateToMajor at h
  split at h
  · exact absurd h (by simp)
  · dsimp only [] at h
    split at h
    · rcases hg : getSentimentTrustLevel (getProp (getProp rec "data") "sentiment")
        with e | t <;> rw [hg] at h
      · simp [Bind.bind, Except.bind] at h
      · simp only [Bind.bind, Except.bind, Pure.pure, Except.pure,
          Except.ok.injEq] at h
        subst h
        exact ⟨rfl, by simp [getProp, objGet]⟩
    · simp only [Bind.bind, Except.bind, Pure.pure, Except.pure,
        Except.ok.injEq] at h
      subst h
      exact ⟨rfl, by simp [getProp, objGet]⟩

/-- C1, counterexample.  On a batch holding a promotion and a queued
operation-update for the same entity, the claimed ordering (remap and apply
the update against the pre-migration classification, then migrate — the
spec-modelled `specOrderExecuteActions`) yields a record whose timeline has
the "First tracked" entry from migrating the updated notes, while the actual
`executeClassificationActions` performs the promotion first, remaps the
update against the **new** `major` classification and leaves the timeline
empty — so remapping does not happen before migration. -/
theorem claim_C1_counterexample :
    timelineLength (executeClassificationActions "T1" regPlain
      actsPromoteAndUpdate).1 "npc_bob" = 0 ∧
    timelineLength (specOrderExecuteActions "T1" regPlain
      actsPromoteAndUpdate).1 "npc_bob" = 1 ∧
    (executeClassificationActions "T1" regPlain actsPromoteAndUpdate).1 ≠
      (specOrderExecuteActions "T1" regPlain actsPromoteAndUpdate).1 := by
  refine ⟨rfl, rfl, fun h => ?_⟩
  have h0 := congrArg (fun r => timelineLength r "npc_bob") h
  exact Nat.zero_ne_one (h0 : (0 : Nat) = 1)

/-- C1 (amended): in a batch holding a promotion and a queued
operation-update for the same entity, `executeClassificationActions` commits
the promotion **first** (the update phase starts from the registry holding
the migrated record and a `promoted` result), and the queued update is then
remapped against the entity's stored classification at that moment — the
*post*-migration `'major'` — before being handed to the delta engine; the
remapping therefore happens **after** the migration, against the
classification the entity has just become. -/
theorem claim_C1 (now id name uname reason : String) (rec M : Val)
    (npcs0 : List (String × Val)) (rm : List String) (ops : List Operation)
    (hM : migrateToMajor now rec reason = .ok M) :
    getProp (getProp M "meta") "classification" = .vstr "major" ∧
    executeClassificationActions now ⟨npcs0, rm⟩
        ⟨[], [⟨id, name, reason, rec⟩], [], [⟨id, uname, ops⟩]⟩ =
      execUpdates now (⟨objSet npcs0 id M, rm⟩, { promoted := [name] })
        [⟨id, uname, ops⟩] ∧
    execUpdateBody now ⟨objSet npcs0 id M, rm⟩ ⟨id, uname, ops⟩ =
      (do
        let remapped ← remapOperationsForClassification now ops (.vstr "major")
        let (reg', _) ← applyOperations now ⟨objSet npcs0 id M, rm⟩ id remapped
        pure (reg', true)) := by
  obtain ⟨htr, hmaj⟩ := migrateToMajor_major now reason rec M hM
  refine ⟨hmaj, ?_, ?_⟩
  · unfold executeClassificationActions execCreates execPromotions execDemotions
    simp only [List.foldl_cons, List.foldl_nil, hM, replaceNPC]
    rfl
  · have hget : getNPC ⟨objSet npcs0 id M, rm⟩ id = M := by
      unfold getNPC truthyOr
      rw [show (Registry.mk (objSet npcs0 id M) rm).npcs = objSet npcs0 id M from rfl,
        objGet_objSet_self, htr]
      rfl
    unfold execUpdateBody
    rw [show (UpdateAction.mk id uname ops).npcId = id from rfl, hget]
    simp only [htr, hmaj, if_true]

/-- C1, witness: the concrete promote-and-update batch of the
counterexample, instantiating the general ordering theorem. -/
theorem claim_C1_witness :
    ∃ M, migrateToMajor "T1" bobPlain "r" = .ok M ∧
      (getProp (getProp M "meta") "classification" = .vstr "major" ∧
      executeClassificationActions "T1" ⟨[("npc_bob", bobPlain)], []⟩
          ⟨[], [⟨"npc_bob", "Bob", "r", bobPlain⟩], [],
            [⟨"npc_bob", "Bob", [⟨.vstr "set", .vstr "data.notes", .vstr "x"⟩]⟩]⟩ =
        execUpdates "T1" (⟨objSet [("npc_bob", bobPlain)] "npc_bob" M, []⟩,
          { promoted := ["Bob"] })
          [⟨"npc_bob", "Bob", [⟨.vstr "set", .vstr "data.notes", .vstr "x"⟩]⟩]) := by
  refine ⟨_, rfl, ?_⟩
  have h := claim_C1 "T1" "npc_bob" "Bob" "Bob" "r" bobPlain _ [("npc_bob", bobPlain)]
    [] [⟨.vstr "set", .vstr "data.notes", .vstr "x"⟩] rfl
  exact ⟨h.1, h.2.1⟩

end SideCar
